import Mathlib

/-!
Verification model of the gem-imager DFU flashing core.

Shallow embedding of:
* `DfuWrapper::findDevice` and `DfuWrapper::downloadFile` (src/dfuwrapper.cpp),
* `DfuThread::run` and its helpers `initializeCache`, `downloadImage`,
  `extractXzFile`, `sendImageToRawemmc` (src/dfuthread.cpp, current revision).

External collaborators (libusb, the dfu-util primitives, the Qt network and
file layer, liblzma) are modelled as oracles: environment records carry the
result every external call would return, and each model function produces the
boolean result of the C++ function together with the ordered list of
observable events (emitted signals, file-system effects, device interaction).
-/

namespace GemImager

/-! ## DFU protocol state constants (USB DFU 1.1, dfu.h of dfu-util) -/

def DFU_STATE_dfuDNLOAD_IDLE : Nat := 5
def DFU_STATE_dfuUPLOAD_IDLE : Nat := 9
def DFU_STATE_dfuERROR : Nat := 10

/-! ## DfuWrapper::findDevice (src/dfuwrapper.cpp lines 80-154)

The loop body per attempt: if `attempt > 0` sleep one second, clear the stale
device list (`disconnect_devices`), probe (`probe_devices`), and break as soon
as `dfu_root` is non-null.  After the loop, a null `dfu_root` yields failure;
otherwise the device is opened with `libusb_open`, whose failure is a distinct
error.  `e.found a` tells whether the probe of attempt `a` sees a device;
`e.openRet` is the `libusb_open` result. -/

inductive FEv where
  | sleepE
  | probeE
  | openE
  deriving DecidableEq, Repr

structure FindEnv where
  initialized : Bool
  found : Nat → Bool
  openRet : Int

inductive FindOutcome where
  | notInit
  | deviceNotFound
  | openFailed
  | ok
  deriving DecidableEq, Repr

/-- The `for (int attempt = 0; attempt < 15; attempt++)` retry loop; `fuel`
is the number of attempts remaining, `attempt` the current index. -/
def findLoop (e : FindEnv) : Nat → Nat → Bool × List FEv
  | 0, _ => (false, [])
  | fuel + 1, attempt =>
    let pre : List FEv := (if attempt > 0 then [FEv.sleepE] else []) ++ [FEv.probeE]
    if e.found attempt then (true, pre)
    else
      let r := findLoop e fuel (attempt + 1)
      (r.1, pre ++ r.2)

def findDevice (e : FindEnv) : FindOutcome × List FEv :=
  if e.initialized = false then (FindOutcome.notInit, [])
  else
    let r := findLoop e 15 0
    if r.1 = false then (FindOutcome.deviceNotFound, r.2)
    else if e.openRet < 0 then (FindOutcome.openFailed, r.2 ++ [FEv.openE])
    else (FindOutcome.ok, r.2 ++ [FEv.openE])

def countFEv (x : FEv) (l : List FEv) : Nat := l.count x

/-! ## DfuWrapper::downloadFile (src/dfuwrapper.cpp lines 156-298) -/

inductive WEv where
  | claimI
  | setAlt
  | releaseI
  | getStat
  | clearStat
  | abortT
  | dnload
  | detachE
  | resetE
  | closeH
  deriving DecidableEq, Repr

/-- Oracle results for the external calls made by `downloadFile`.
`status0` is the `(return, bState)` pair of the first `dfu_get_status`,
`status1` of the re-query after `dfu_clear_status`, `status2` of the re-query
after `dfu_abort`.  `dnloadRet` is the `dfuload_do_dnload` result.
`detachRet`/`resetRet` are the detach/reset results (the code only logs
them). -/
structure DlEnv where
  hasDevice : Bool
  claimRet : Int
  altFlag : Bool
  altRet : Int
  status0 : Int × Nat
  status1 : Int × Nat
  status2 : Int × Nat
  dnloadRet : Int
  resetAfter : Bool
  detachRet : Int
  resetRet : Int

/-- Tail of `downloadFile` from `dfuload_do_dnload` on: perform the transfer,
release the interface, apply the result check at line 259
(`if (ret < 0 && ret != -1) return false;`), and when `resetAfter` is set run
detach, reset and close the handle, ignoring the detach/reset results. -/
def doTransfer (e : DlEnv) (t : List WEv) : Bool × List WEv :=
  let tD := t ++ [WEv.dnload, WEv.releaseI]
  if e.dnloadRet < 0 ∧ e.dnloadRet ≠ -1 then (false, tD)
  else
    (true, tD ++ (if e.resetAfter then [WEv.detachE, WEv.resetE, WEv.closeH] else []))

/-- The `DFU_STATE_dfuDNLOAD_IDLE || DFU_STATE_dfuUPLOAD_IDLE` recovery at
lines 216-225: abort once, re-query once; a failed re-query releases the
interface and fails.  `st` is the state after the (possible) error
recovery. -/
def afterStatus (e : DlEnv) (t : List WEv) (st : Nat) : Bool × List WEv :=
  if st = DFU_STATE_dfuDNLOAD_IDLE ∨ st = DFU_STATE_dfuUPLOAD_IDLE then
    let tA := t ++ [WEv.abortT, WEv.getStat]
    if e.status2.1 < 0 then (false, tA ++ [WEv.releaseI])
    else doTransfer e tA
  else doTransfer e t

def downloadFile (e : DlEnv) : Bool × List WEv :=
  if e.hasDevice = false then (false, [])
  else if e.claimRet < 0 then (false, [WEv.claimI])
  else
    let tAlt : List WEv := [WEv.claimI] ++ (if e.altFlag then [WEv.setAlt] else [])
    if e.altFlag = true ∧ e.altRet < 0 then (false, tAlt ++ [WEv.releaseI])
    else
      let tS0 := tAlt ++ [WEv.getStat]
      if e.status0.1 < 0 then (false, tS0 ++ [WEv.releaseI])
      else
        if e.status0.2 = DFU_STATE_dfuERROR then
          let tC := tS0 ++ [WEv.clearStat, WEv.getStat]
          if e.status1.1 < 0 then (false, tC ++ [WEv.releaseI])
          else afterStatus e tC e.status1.2
        else afterStatus e tS0 e.status0.2

def countWEv (x : WEv) (l : List WEv) : Nat := l.count x

/-- The DFU state the code sees when it reaches the idle-state check at line
216: the re-queried state if the initial state was `dfuERROR`, the initial
state otherwise. -/
def effectiveState (e : DlEnv) : Nat :=
  if e.status0.2 = DFU_STATE_dfuERROR then e.status1.2 else e.status0.2

/-! ## findLoop characterization -/

theorem findLoop_all_miss (e : FindEnv) :
    ∀ fuel start, (∀ i, i < fuel → e.found (start + i) = false) →
    (findLoop e fuel start).1 = false ∧
    countFEv FEv.probeE (findLoop e fuel start).2 = fuel ∧
    (1 ≤ start → countFEv FEv.sleepE (findLoop e fuel start).2 = fuel) ∧
    (start = 0 → countFEv FEv.sleepE (findLoop e fuel start).2 = fuel - 1) := by
  intro fuel
  induction fuel with
  | zero => intro start _; simp [findLoop, countFEv]
  | succ n ih =>
    intro start h
    have h0 : e.found start = false := by
      have := h 0 (Nat.succ_pos n); simpa using this
    have hrest : ∀ i, i < n → e.found (start + 1 + i) = false := by
      intro i hi
      have := h (i + 1) (by omega)
      simpa [Nat.add_assoc, Nat.add_comm 1 i] using this
    have ihr := ih (start + 1) hrest
    have ihr2 := ihr.2.2.1 (by omega)
    simp only [countFEv] at ihr ihr2
    rcases Nat.eq_zero_or_pos start with hs | hs
    · subst hs
      simp only [Nat.zero_add] at ihr ihr2
      simp only [findLoop, h0, if_false, if_neg (by omega : ¬ (0 : Nat) > 0),
        List.nil_append, countFEv, List.count_append, List.count_cons, List.count_nil]
      refine ⟨ihr.1, by simp; omega, by omega, by intro _; simp; omega⟩
    · simp only [findLoop, h0, if_false, if_pos (by omega : start > 0),
        countFEv, List.count_append, List.count_cons, List.count_nil]
      refine ⟨ihr.1, by simp; omega, by intro _; simp; omega, by intro h0'; omega⟩

theorem findLoop_first_hit (e : FindEnv) :
    ∀ fuel i start, i < fuel → e.found (start + i) = true →
    (∀ j, j < i → e.found (start + j) = false) →
    (findLoop e fuel start).1 = true ∧
    countFEv FEv.probeE (findLoop e fuel start).2 = i + 1 ∧
    (1 ≤ start → countFEv FEv.sleepE (findLoop e fuel start).2 = i + 1) ∧
    (start = 0 → countFEv FEv.sleepE (findLoop e fuel start).2 = i) := by
  intro fuel
  induction fuel with
  | zero => intro i start hi; omega
  | succ n ih =>
    intro i start hi hfound hmin
    cases i with
    | zero =>
      have h0 : e.found start = true := by simpa using hfound
      rcases Nat.eq_zero_or_pos start with hs | hs
      · subst hs
        simp [findLoop, h0, countFEv]
      · simp [findLoop, h0, if_pos (by omega : start > 0), countFEv]
        omega
    | succ m =>
      have h0 : e.found start = false := by
        have := hmin 0 (Nat.succ_pos m); simpa using this
      have hfound' : e.found (start + 1 + m) = true := by
        simpa [Nat.add_assoc, Nat.add_comm 1 m] using hfound
      have hmin' : ∀ j, j < m → e.found (start + 1 + j) = false := by
        intro j hj
        have := hmin (j + 1) (by omega)
        simpa [Nat.add_assoc, Nat.add_comm 1 j] using this
      have ihr := ih m (start + 1) (by omega) hfound' hmin'
      have ihr2 := ihr.2.2.1 (by omega)
      simp only [countFEv] at ihr ihr2
      rcases Nat.eq_zero_or_pos start with hs | hs
      · subst hs
        simp only [Nat.zero_add] at ihr ihr2
        simp only [findLoop, h0, if_false, if_neg (by omega : ¬ (0 : Nat) > 0),
          List.nil_append, countFEv, List.count_append, List.count_cons, List.count_nil]
        refine ⟨ihr.1, by simp; omega, by omega, by intro _; simp; omega⟩
      · simp only [findLoop, h0, if_false, if_pos (by omega : start > 0),
          countFEv, List.count_append, List.count_cons, List.count_nil]
        refine ⟨ihr.1, by simp; omega, by intro _; simp; omega, by intro h0'; omega⟩

/-! ## Claim C2 -/

/-- The retry policy of `findDevice`: at most 15 probes; a one-second wait
before every probe except the first; the dedicated device-not-found failure
occurs exactly when no probe in the 15 attempts sees a device; and when the
first matching probe is attempt `a` (and the subsequent `libusb_open`
succeeds) the call succeeds having probed exactly `a + 1` times. -/
def FindRetryPolicy (e : FindEnv) : Prop :=
  countFEv FEv.probeE (findDevice e).2 ≤ 15 ∧
  countFEv FEv.sleepE (findDevice e).2 + 1 = countFEv FEv.probeE (findDevice e).2 ∧
  ((findDevice e).1 = FindOutcome.deviceNotFound ↔ ∀ a, a < 15 → e.found a = false) ∧
  (∀ a, a < 15 → e.found a = true → (∀ b, b < a → e.found b = false) → 0 ≤ e.openRet →
    (findDevice e).1 = FindOutcome.ok ∧ countFEv FEv.probeE (findDevice e).2 = a + 1)

/-- Claim C2: device discovery probes at most 15 times, sleeping one second
before each retry but not before the first attempt, succeeds at the first
attempt where a matching device appears, and reports the device-not-found
failure exactly when all 15 attempts find nothing. -/
theorem findDevice_retry_policy (e : FindEnv) (hinit : e.initialized = true) :
    FindRetryPolicy e := by
  by_cases hall : ∀ a, a < 15 → e.found a = false
  · have hmiss := findLoop_all_miss e 15 0 (by intro i hi; simpa using hall i hi)
    have hloop : (findLoop e 15 0).1 = false := hmiss.1
    have hout : findDevice e = (FindOutcome.deviceNotFound, (findLoop e 15 0).2) := by
      simp [findDevice, hinit, hloop]
    constructor
    · rw [hout]; exact le_of_eq hmiss.2.1
    · refine ⟨?_, ?_, ?_⟩
      · rw [hout]
        have hs := hmiss.2.2.2 rfl
        rw [hs, hmiss.2.1]
      · exact ⟨fun _ => hall, fun _ => by rw [hout]⟩
      · intro a ha hfa _ _
        exact absurd (hall a ha) (by simp [hfa])
  · push_neg at hall
    obtain ⟨a0, ha0lt, ha0⟩ := hall
    have hex : ∃ n, e.found n = true := ⟨a0, by simpa using ha0⟩
    set i := Nat.find hex with hidef
    have hfi : e.found i = true := Nat.find_spec hex
    have hmin : ∀ j, j < i → e.found j = false := by
      intro j hj
      have := Nat.find_min hex hj
      simpa using this
    have hilt : i < 15 := lt_of_le_of_lt (Nat.find_min' hex (by simpa using ha0)) ha0lt
    have hhit := findLoop_first_hit e 15 i 0 hilt (by simpa using hfi)
      (by intro j hj; simpa using hmin j hj)
    have hloop : (findLoop e 15 0).1 = true := hhit.1
    have htrace : (findDevice e).2 = (findLoop e 15 0).2 ++ [FEv.openE] := by
      by_cases hop : e.openRet < 0 <;> simp [findDevice, hinit, hloop, hop]
    have hcp : countFEv FEv.probeE (findDevice e).2 = i + 1 := by
      rw [htrace]; simp [countFEv, List.count_append]
      exact hhit.2.1
    have hcs : countFEv FEv.sleepE (findDevice e).2 = i := by
      rw [htrace]; simp [countFEv, List.count_append]
      exact hhit.2.2.2 rfl
    refine ⟨by omega, by omega, ?_, ?_⟩
    · constructor
      · intro hdnf
        exfalso
        by_cases hop : e.openRet < 0 <;> simp [findDevice, hinit, hloop, hop] at hdnf
      · intro h; exact absurd (h i hilt) (by simp [hfi])
    · intro a ha hfa hmina hop
      have hia : i = a := by
        have h1 : i ≤ a := Nat.find_min' hex (by simpa using hfa)
        rcases Nat.lt_or_ge i a with h | h
        · exact absurd hfi (by simp [hmina i h])
        · omega
      subst hia
      refine ⟨?_, hcp⟩
      simp [findDevice, hinit, hloop, not_lt.mpr hop]

/-- Concrete witness environment for C2: the device appears on the third
probe (attempt index 2) and opens successfully. -/
def c2Env : FindEnv := ⟨true, fun a => decide (a = 2), 0⟩

theorem findDevice_retry_policy_witness : FindRetryPolicy c2Env :=
  findDevice_retry_policy c2Env rfl

/-! ## Characterization of downloadFile up to the transfer -/

/-- Events before any status recovery: claim, optional alt-setting select,
first status query. -/
def preS (e : DlEnv) : List WEv :=
  [WEv.claimI] ++ (if e.altFlag = true then [WEv.setAlt] else []) ++ [WEv.getStat]

/-- Events through the (possible) error-clear recovery. -/
def preQ (e : DlEnv) : List WEv :=
  preS e ++ (if e.status0.2 = DFU_STATE_dfuERROR then [WEv.clearStat, WEv.getStat] else [])

/-- The idle-state test applied to the effective state. -/
def idleEff (e : DlEnv) : Prop :=
  effectiveState e = DFU_STATE_dfuDNLOAD_IDLE ∨ effectiveState e = DFU_STATE_dfuUPLOAD_IDLE

instance (e : DlEnv) : Decidable (idleEff e) := by unfold idleEff; infer_instance

/-- Events through the (possible) abort recovery, immediately before the
block transfer. -/
def preT (e : DlEnv) : List WEv :=
  preQ e ++ (if idleEff e then [WEv.abortT, WEv.getStat] else [])

/-- Characterization of `downloadFile` once the device is present, the
interface claim succeeded, the alt-setting selection succeeded (when
performed) and the first status query succeeded. -/
theorem downloadFile_char (e : DlEnv) (hdev : e.hasDevice = true)
    (hclaim : 0 ≤ e.claimRet) (halt : e.altFlag = true → 0 ≤ e.altRet)
    (hs0 : 0 ≤ e.status0.1) :
    downloadFile e =
      if e.status0.2 = DFU_STATE_dfuERROR ∧ e.status1.1 < 0 then
        (false, preS e ++ [WEv.clearStat, WEv.getStat, WEv.releaseI])
      else if idleEff e ∧ e.status2.1 < 0 then
        (false, preQ e ++ [WEv.abortT, WEv.getStat, WEv.releaseI])
      else doTransfer e (preT e) := by
  have hnc : ¬ e.claimRet < 0 := by omega
  have hna : ¬ (e.altFlag = true ∧ e.altRet < 0) := by
    rintro ⟨hf, hl⟩; exact absurd (halt hf) (by omega)
  have hns0 : ¬ e.status0.1 < 0 := by omega
  by_cases hE : e.status0.2 = DFU_STATE_dfuERROR
  · by_cases hr1 : e.status1.1 < 0
    · simp [downloadFile, hdev, hnc, hna, hns0, hE, hr1, preS]
    · by_cases hidle : idleEff e
      · have hidle' := hidle
        simp only [idleEff, effectiveState, hE, if_true] at hidle'
        by_cases hr2 : e.status2.1 < 0 <;>
          simp [downloadFile, afterStatus, hdev, hnc, hna, hns0, hE, hr1, hidle, hidle',
            hr2, preS, preQ, preT]
      · have hidle' := hidle
        simp only [idleEff, effectiveState, hE, if_true] at hidle'
        simp [downloadFile, afterStatus, hdev, hnc, hna, hns0, hE, hr1, hidle, hidle',
          preS, preQ, preT]
  · by_cases hidle : idleEff e
    · have hidle' := hidle
      simp only [idleEff, effectiveState, hE, if_false] at hidle'
      by_cases hr2 : e.status2.1 < 0 <;>
        simp [downloadFile, afterStatus, hdev, hnc, hna, hns0, hE, hidle, hidle',
          hr2, preS, preQ, preT]
    · have hidle' := hidle
      simp only [idleEff, effectiveState, hE, if_false] at hidle'
      simp [downloadFile, afterStatus, hdev, hnc, hna, hns0, hE, hidle, hidle',
        preS, preQ, preT]

/-! Event counts of the pre-transfer traces and of `doTransfer`. -/

theorem preS_counts (e : DlEnv) :
    countWEv WEv.clearStat (preS e) = 0 ∧ countWEv WEv.abortT (preS e) = 0 ∧
    countWEv WEv.getStat (preS e) = 1 ∧ countWEv WEv.detachE (preS e) = 0 ∧
    countWEv WEv.resetE (preS e) = 0 := by
  cases haf : e.altFlag <;> simp [preS, countWEv, haf]

theorem preQ_counts (e : DlEnv) :
    countWEv WEv.clearStat (preQ e) =
      (if e.status0.2 = DFU_STATE_dfuERROR then 1 else 0) ∧
    countWEv WEv.abortT (preQ e) = 0 ∧
    countWEv WEv.getStat (preQ e) =
      1 + (if e.status0.2 = DFU_STATE_dfuERROR then 1 else 0) ∧
    countWEv WEv.detachE (preQ e) = 0 ∧ countWEv WEv.resetE (preQ e) = 0 := by
  have hp := preS_counts e
  simp only [countWEv] at hp
  by_cases hE : e.status0.2 = DFU_STATE_dfuERROR <;>
    · simp [preQ, countWEv, hE, List.count_append]
      omega

theorem preT_counts (e : DlEnv) :
    countWEv WEv.clearStat (preT e) =
      (if e.status0.2 = DFU_STATE_dfuERROR then 1 else 0) ∧
    countWEv WEv.abortT (preT e) = (if idleEff e then 1 else 0) ∧
    countWEv WEv.getStat (preT e) =
      1 + (if e.status0.2 = DFU_STATE_dfuERROR then 1 else 0) +
        (if idleEff e then 1 else 0) ∧
    countWEv WEv.detachE (preT e) = 0 ∧ countWEv WEv.resetE (preT e) = 0 := by
  have hp := preQ_counts e
  simp [countWEv] at hp
  by_cases hI : idleEff e <;>
    simp [preT, countWEv, hI, List.count_append] <;> omega

/-- On a failed transfer `doTransfer` returns false with no further events
beyond the transfer itself and the interface release. -/
theorem doTransfer_fail (e : DlEnv) (t : List WEv)
    (h : e.dnloadRet < 0 ∧ e.dnloadRet ≠ -1) :
    doTransfer e t = (false, t ++ [WEv.dnload, WEv.releaseI]) := by
  simp [doTransfer, h]

/-- On a successful (or benign -1) transfer `doTransfer` returns true. -/
theorem doTransfer_ok (e : DlEnv) (t : List WEv)
    (h : ¬ (e.dnloadRet < 0 ∧ e.dnloadRet ≠ -1)) :
    (doTransfer e t).1 = true := by
  simp [doTransfer, h]

theorem doTransfer_ok_trace (e : DlEnv) (t : List WEv)
    (h : ¬ (e.dnloadRet < 0 ∧ e.dnloadRet ≠ -1)) :
    (doTransfer e t).2 =
      t ++ [WEv.dnload, WEv.releaseI] ++
        (if e.resetAfter = true then [WEv.detachE, WEv.resetE, WEv.closeH] else []) := by
  simp [doTransfer, h]

theorem doTransfer_recovery_counts (e : DlEnv) (t : List WEv) :
    countWEv WEv.clearStat (doTransfer e t).2 = countWEv WEv.clearStat t ∧
    countWEv WEv.abortT (doTransfer e t).2 = countWEv WEv.abortT t ∧
    countWEv WEv.getStat (doTransfer e t).2 = countWEv WEv.getStat t := by
  unfold doTransfer
  split_ifs with hd hr <;> simp [countWEv, List.count_append]

/-! ## Claim C1 -/

/-- Path hypotheses under which `downloadFile` reaches the block transfer:
device present, interface claimed, alternate setting selected (when needed),
and every status query on the way succeeded. -/
def ReachesTransfer (e : DlEnv) : Prop :=
  e.hasDevice = true ∧ 0 ≤ e.claimRet ∧ (e.altFlag = true → 0 ≤ e.altRet) ∧
  0 ≤ e.status0.1 ∧ (e.status0.2 = DFU_STATE_dfuERROR → 0 ≤ e.status1.1) ∧
  0 ≤ e.status2.1

theorem downloadFile_reaches (e : DlEnv) (h : ReachesTransfer e) :
    downloadFile e = doTransfer e (preT e) := by
  obtain ⟨hdev, hclaim, halt, hs0, hs1, hs2⟩ := h
  rw [downloadFile_char e hdev hclaim halt hs0]
  rw [if_neg (by rintro ⟨hE, hr1⟩; exact absurd (hs1 hE) (by omega)),
    if_neg (by rintro ⟨_, hr2⟩; omega)]

/-- Interpretation of the `dfuload_do_dnload` result: a nonnegative code or
the single benign code -1 (`LIBUSB_ERROR_IO`) is success; every other
negative code is a transfer failure and the session never reaches
detach/reset. -/
def TransferResultPolicy (e : DlEnv) : Prop :=
  ((0 ≤ e.dnloadRet ∨ e.dnloadRet = -1) → (downloadFile e).1 = true) ∧
  (e.dnloadRet < 0 ∧ e.dnloadRet ≠ -1 →
    (downloadFile e).1 = false ∧
    WEv.detachE ∉ (downloadFile e).2 ∧ WEv.resetE ∉ (downloadFile e).2)

/-- Claim C1: zero or positive transfer codes and the benign -1 are treated
as success; any other negative code makes `downloadFile` return false without
proceeding to detach/reset. -/
theorem downloadFile_transfer_result (e : DlEnv) (h : ReachesTransfer e) :
    TransferResultPolicy e := by
  rw [TransferResultPolicy, downloadFile_reaches e h]
  constructor
  · intro hok
    refine doTransfer_ok e _ ?_
    rcases hok with h1 | h1
    · intro hc; omega
    · intro hc; exact hc.2 h1
  · intro hfail
    rw [doTransfer_fail e _ hfail]
    have hT := preT_counts e
    refine ⟨rfl, ?_, ?_⟩ <;>
      · rw [← List.count_eq_zero (α := WEv)]
        simp only [List.count_append]
        simp [countWEv] at hT
        simp
        omega

/-- Concrete witness environment for C1 (and C3's recovery path): initial
state `dfuERROR`, state `dfuDNLOAD_IDLE` after the clear, all queries
succeed, and the transfer returns the benign code -1. -/
def c1Env : DlEnv :=
  ⟨true, 0, true, 0, (0, DFU_STATE_dfuERROR), (0, DFU_STATE_dfuDNLOAD_IDLE),
   (0, 2), -1, true, 0, 0⟩

theorem downloadFile_transfer_result_witness : TransferResultPolicy c1Env :=
  downloadFile_transfer_result c1Env
    (by refine ⟨rfl, by decide, fun _ => by decide, by decide, fun _ => by decide, by decide⟩)

/-! ## Claim C3 -/

/-- The single-shot status recovery of `downloadFile`: exactly one
`dfu_clear_status` when and only when the first queried state is `dfuERROR`;
exactly one `dfu_abort` when and only when the state seen afterwards is
download-idle or upload-idle; a failed re-query fails the session; each
recovery happens at most once; and every recovery accounts for exactly one
additional status query. -/
def StatusRecoveryPolicy (e : DlEnv) : Prop :=
  (countWEv WEv.clearStat (downloadFile e).2 =
    (if e.status0.2 = DFU_STATE_dfuERROR then 1 else 0)) ∧
  ((e.status0.2 = DFU_STATE_dfuERROR → 0 ≤ e.status1.1) →
    countWEv WEv.abortT (downloadFile e).2 = (if idleEff e then 1 else 0)) ∧
  (e.status0.2 = DFU_STATE_dfuERROR → e.status1.1 < 0 → (downloadFile e).1 = false) ∧
  ((e.status0.2 = DFU_STATE_dfuERROR → 0 ≤ e.status1.1) →
    idleEff e → e.status2.1 < 0 → (downloadFile e).1 = false) ∧
  countWEv WEv.clearStat (downloadFile e).2 ≤ 1 ∧
  countWEv WEv.abortT (downloadFile e).2 ≤ 1 ∧
  ((e.status0.2 = DFU_STATE_dfuERROR → 0 ≤ e.status1.1) →
    countWEv WEv.getStat (downloadFile e).2 =
      1 + countWEv WEv.clearStat (downloadFile e).2 +
        countWEv WEv.abortT (downloadFile e).2)

/-- Claim C3: before any block transfer, status is queried once; an `ERROR`
state gets exactly one clear plus re-query, an idle state exactly one abort
plus re-query; a failed re-query fails the session; there is no second
recovery attempt. -/
theorem downloadFile_status_recovery (e : DlEnv)
    (hdev : e.hasDevice = true) (hclaim : 0 ≤ e.claimRet)
    (halt : e.altFlag = true → 0 ≤ e.altRet) (hs0 : 0 ≤ e.status0.1) :
    StatusRecoveryPolicy e := by
  have hS := preS_counts e
  have hQ := preQ_counts e
  have hT := preT_counts e
  simp only [countWEv] at hS hQ hT
  have hchar := downloadFile_char e hdev hclaim halt hs0
  by_cases h1 : e.status0.2 = DFU_STATE_dfuERROR ∧ e.status1.1 < 0
  · rw [if_pos h1] at hchar
    obtain ⟨hE, hr1⟩ := h1
    have hvac : ¬ (e.status0.2 = DFU_STATE_dfuERROR → 0 ≤ e.status1.1) := by
      intro h; exact absurd (h hE) (by omega)
    have hc : List.count WEv.clearStat (downloadFile e).2 = 1 := by
      rw [hchar]; simp only [List.count_append]
      have : List.count WEv.clearStat [WEv.clearStat, WEv.getStat, WEv.releaseI] = 1 := by decide
      omega
    have ha : List.count WEv.abortT (downloadFile e).2 = 0 := by
      rw [hchar]; simp only [List.count_append]
      have : List.count WEv.abortT [WEv.clearStat, WEv.getStat, WEv.releaseI] = 0 := by decide
      omega
    refine ⟨?_, fun h => absurd h hvac, fun _ _ => by rw [hchar], fun h => absurd h hvac,
      ?_, ?_, fun h => absurd h hvac⟩
    · rw [if_pos hE]; exact hc
    · simp only [countWEv]; omega
    · simp only [countWEv]; omega
  · rw [if_neg h1] at hchar
    by_cases h2 : idleEff e ∧ e.status2.1 < 0
    · rw [if_pos h2] at hchar
      obtain ⟨hI, hr2⟩ := h2
      have hc : List.count WEv.clearStat (downloadFile e).2 =
          (if e.status0.2 = DFU_STATE_dfuERROR then 1 else 0) := by
        rw [hchar]; simp only [List.count_append]
        have : List.count WEv.clearStat [WEv.abortT, WEv.getStat, WEv.releaseI] = 0 := by decide
        omega
      have ha : List.count WEv.abortT (downloadFile e).2 = 1 := by
        rw [hchar]; simp only [List.count_append]
        have : List.count WEv.abortT [WEv.abortT, WEv.getStat, WEv.releaseI] = 1 := by decide
        omega
      have hg : List.count WEv.getStat (downloadFile e).2 =
          (1 + if e.status0.2 = DFU_STATE_dfuERROR then 1 else 0) + 1 := by
        rw [hchar]; simp only [List.count_append]
        have : List.count WEv.getStat [WEv.abortT, WEv.getStat, WEv.releaseI] = 1 := by decide
        omega
      have hle : (if e.status0.2 = DFU_STATE_dfuERROR then (1 : Nat) else 0) ≤ 1 := by
        by_cases hE : e.status0.2 = DFU_STATE_dfuERROR <;> simp [hE]
      refine ⟨hc, fun _ => by rw [if_pos hI]; exact ha,
        fun hE hr1 => absurd ⟨hE, hr1⟩ h1, fun _ _ _ => by rw [hchar],
        ?_, ?_, fun _ => ?_⟩
      · simp only [countWEv]; omega
      · simp only [countWEv]; omega
      · simp only [countWEv]; omega
    · rw [if_neg h2] at hchar
      have hD := doTransfer_recovery_counts e (preT e)
      simp only [countWEv] at hD
      have hc : List.count WEv.clearStat (downloadFile e).2 =
          (if e.status0.2 = DFU_STATE_dfuERROR then 1 else 0) := by
        rw [hchar, hD.1]; exact hT.1
      have ha : List.count WEv.abortT (downloadFile e).2 = (if idleEff e then 1 else 0) := by
        rw [hchar, hD.2.1]; exact hT.2.1
      have hg : List.count WEv.getStat (downloadFile e).2 =
          (1 + if e.status0.2 = DFU_STATE_dfuERROR then 1 else 0) + (if idleEff e then 1 else 0) := by
        rw [hchar, hD.2.2]; exact hT.2.2.1
      have hle1 : (if e.status0.2 = DFU_STATE_dfuERROR then (1 : Nat) else 0) ≤ 1 := by
        by_cases hE : e.status0.2 = DFU_STATE_dfuERROR <;> simp [hE]
      have hle2 : (if idleEff e then (1 : Nat) else 0) ≤ 1 := by
        by_cases hI : idleEff e <;> simp [hI]
      refine ⟨hc, fun _ => ha, fun hE hr1 => absurd ⟨hE, hr1⟩ h1,
        fun _ hI hr2 => absurd ⟨hI, hr2⟩ h2, ?_, ?_, fun _ => ?_⟩
      · simp only [countWEv]; omega
      · simp only [countWEv]; omega
      · simp only [countWEv]; omega

theorem downloadFile_status_recovery_witness : StatusRecoveryPolicy c1Env :=
  downloadFile_status_recovery c1Env rfl (by decide) (fun _ => by decide) (by decide)

/-! ## Claim C8 -/

/-- Replace only the detach and reset results of an environment. -/
def setDetachReset (e : DlEnv) (d r : Int) : DlEnv :=
  ⟨e.hasDevice, e.claimRet, e.altFlag, e.altRet, e.status0, e.status1, e.status2,
   e.dnloadRet, e.resetAfter, d, r⟩

/-- After a successful transfer with `resetAfter` set, the call returns true
for every detach result and every reset result, and the device handle is
closed on that path. -/
def ResetPathPolicy (e : DlEnv) : Prop :=
  ∀ d r : Int,
    (downloadFile (setDetachReset e d r)).1 = true ∧
    WEv.closeH ∈ (downloadFile (setDetachReset e d r)).2

/-- Claim C8: with `resetAfter` set and the data transfer successful,
`downloadFile` returns true regardless of the detach and reset outcomes, and
always closes the device handle on this path.  (The code reads the detach and
reset results only to log them: lines 275-288 of dfuwrapper.cpp.) -/
theorem downloadFile_reset_path (e : DlEnv) (h : ReachesTransfer e)
    (hdl : 0 ≤ e.dnloadRet ∨ e.dnloadRet = -1) (hreset : e.resetAfter = true) :
    ResetPathPolicy e := by
  intro d r
  have hne : ¬ ((setDetachReset e d r).dnloadRet < 0 ∧ (setDetachReset e d r).dnloadRet ≠ -1) := by
    rcases hdl with h1 | h1
    · intro hc; simp [setDetachReset] at hc; omega
    · intro hc; exact hc.2 h1
  have hreach : ReachesTransfer (setDetachReset e d r) := by
    obtain ⟨h1, h2, h3, h4, h5, h6⟩ := h
    exact ⟨h1, h2, h3, h4, h5, h6⟩
  rw [downloadFile_reaches _ hreach]
  refine ⟨doTransfer_ok _ _ hne, ?_⟩
  rw [doTransfer_ok_trace _ _ hne]
  have : (setDetachReset e d r).resetAfter = true := hreset
  simp [this]

theorem downloadFile_reset_path_witness : ResetPathPolicy c1Env :=
  downloadFile_reset_path c1Env
    (by refine ⟨rfl, by decide, fun _ => by decide, by decide, fun _ => by decide, by decide⟩)
    (Or.inr rfl) rfl

/-! ## DfuThread::run (src/dfuthread.cpp, current revision, lines 519-783)

Observable events of the campaign thread, in emission order: progress
signals (percent only), the terminal `error`/`success` signals, file-system
effects, the start of a network fetch, device-session interaction, and
waits. -/

inductive REv where
  | prog (pct : Int)
  | err
  | succ
  | netFetch
  | truncF (p : String)
  | writeF (p : String) (n : Nat)
  | removeF (p : String)
  | setHash (h : Nat)
  | clearHash
  | sessionNew
  | sessionInit
  | sessionFind
  | sessionDownload
  | sleepS (s : Nat)
  deriving DecidableEq, Repr

/-- Oracle for one `downloadImage` call: whether the output file opens,
the `(received, total)` arguments of the successive `downloadProgress`
callbacks, the sizes of the `readyRead` chunks written before completion,
whether the reply ends in a network error, and the size of the final
`readAll` chunk written on success. -/
structure FetchEnv where
  outOpenOk : Bool
  callbacks : List (Int × Int)
  chunkSizes : List Nat
  netError : Bool
  finalChunk : Nat

/-- Line 828 of dfuthread.cpp: `int percentage = 5 + (received * 35 / total)`
(C++ `qint64` division truncates toward zero). -/
def fetchPct (r t : Int) : Int := 5 + Int.tdiv (r * 35) t

/-- The percentages emitted by the `downloadProgress` callbacks; callbacks
with `total <= 0` emit nothing (line 826). -/
def fetchPcts (f : FetchEnv) : List Int :=
  (f.callbacks.filter (fun rt => 0 < rt.2)).map (fun rt => fetchPct rt.1 rt.2)

/-- `DfuThread::downloadImage` (lines 798-870).  The network reply is
requested before the output file is opened; the output open truncates the
file; progress callbacks and chunk writes happen while waiting; a reply
error emits the inner `error` signal (line 857) and returns false leaving
the partial file in place; on success the final `readAll` chunk is written
and the call returns true. -/
def downloadImage (f : FetchEnv) (outPath : String) : Bool × List REv :=
  if f.outOpenOk = false then (false, [REv.netFetch])
  else
    let pre := [REv.netFetch, REv.truncF outPath] ++ (fetchPcts f).map REv.prog
      ++ f.chunkSizes.map (fun n => REv.writeF outPath n)
    if f.netError then (false, pre ++ [REv.err])
    else (true, pre ++ [REv.writeF outPath f.finalChunk])

/-- How one execution of the `extractXzFile` streaming loop ends: an input
read error (line 917), a short write on a flush (line 934), a decoder error
from `lzma_code` (line 955), or `LZMA_STREAM_END` with a final flush of
`size` bytes whose write succeeds or not. -/
inductive XzEnd where
  | readErr
  | writeErr (size : Nat)
  | decodeErr (kind : Nat)
  | finish (size : Nat) (writeOk : Bool)
  deriving DecidableEq, Repr

/-- Oracle for one `extractXzFile` call: whether input/output open, whether
`lzma_stream_decoder` initializes, the sizes of the successful intermediate
output-buffer flushes, and how the loop ends. -/
structure XzEnv where
  inOpenOk : Bool
  outOpenOk : Bool
  initOk : Bool
  flushes : List Nat
  ending : XzEnd

/-- Line 942: `40 + qMin(10, (int)(totalWritten * 10 / (4LL*1024*1024*1024)))`. -/
def xzProgress (tw : Nat) : Int := ((40 + min 10 (tw * 10 / 4294967296) : Nat) : Int)

/-- The successful intermediate flushes of the decompression loop: each
writes its chunk and emits a progress update only when the new percentage
exceeds the last one emitted (lines 931-951).  Returns the events, the
final `totalWritten`, and the final `lastProgress`. -/
def xzFlushes (outPath : String) : List Nat → Nat → Int → List REv × Nat × Int
  | [], tw, lp => ([], tw, lp)
  | n :: rest, tw, lp =>
    let tw2 := tw + n
    let np := xzProgress tw2
    let emit : List REv := if lp < np then [REv.prog np] else []
    let lp2 := if lp < np then np else lp
    let r := xzFlushes outPath rest tw2 lp2
    ([REv.writeF outPath n] ++ emit ++ r.1, r.2)

/-- `DfuThread::extractXzFile` (lines 872-978).  Every failure emits the
inner `error` signal.  Failures before the loop (input open, output open,
decoder initialization) return false without removing the output path —
in particular a decoder-initialization failure leaves behind the output
file just truncated to zero length by its open.  Failures inside the loop
remove the output file (lines 970-974) after the loop's `error` signal. -/
def extractXzFile (x : XzEnv) (outPath : String) : Bool × List REv :=
  if x.inOpenOk = false then (false, [REv.err])
  else if x.outOpenOk = false then (false, [REv.err])
  else if x.initOk = false then (false, [REv.truncF outPath, REv.err])
  else
    let r := xzFlushes outPath x.flushes 0 40
    let body := [REv.truncF outPath] ++ r.1
    match x.ending with
    | XzEnd.readErr => (false, body ++ [REv.err, REv.removeF outPath])
    | XzEnd.writeErr _ => (false, body ++ [REv.err, REv.removeF outPath])
    | XzEnd.decodeErr _ => (false, body ++ [REv.err, REv.removeF outPath])
    | XzEnd.finish n ok =>
      if ok = false then (false, body ++ [REv.err, REv.removeF outPath])
      else
        let np := xzProgress (r.2.1 + n)
        (true, body ++ [REv.writeF outPath n] ++ (if r.2.2 < np then [REv.prog np] else []))

/-- Results of the three `DfuWrapper` calls made for one transfer stage. -/
structure StageEnv where
  initOk : Bool
  findOk : Bool
  dlOk : Bool

/-- Environment of one campaign: the image-selection settings, the
file-system and settings state observed by the campaign, and the oracles
for the external collaborators. -/
structure RunEnv where
  board : String
  imageTypeRaw : String
  distro : String
  variantRaw : String
  testFilesPath : String
  cacheDir : String
  tempDir : String
  cachingEnabled : Bool
  storedHash0 : Option Nat
  hashFn : String → Nat
  cacheExists : Bool
  cacheReadable : Bool
  cacheSize : Nat
  settingsWritable : Bool
  fetch : FetchEnv
  xz : XzEnv
  bootExists : String → Bool
  stages : Nat → StageEnv
  raw : StageEnv

/-- Line 440: the single cache slot path. -/
def cachePath (e : RunEnv) : String := e.cacheDir ++ "/lastdfudownload.cache"

/-- `DfuThread::initializeCache` (lines 434-456), run at construction: when a
stored identity exists but the cache file is missing, unreadable, or empty,
the stored identity is cleared.  Returns the effective stored identity and
the settings effect. -/
def initializeCache (e : RunEnv) : Option Nat × List REv :=
  match e.storedHash0 with
  | none => (none, [])
  | some h =>
    if e.cacheExists = false ∨ e.cacheReadable = false ∨ e.cacheSize = 0 then
      (none, [REv.clearHash])
    else (some h, [])

/-- Lines 534-545: `imageType`/`variant` resolution, including the split on
a slash and the two empty-variant fallbacks to "minimal". -/
def resolveTypeVariant (imageTypeRaw variantRaw : String) : String × String :=
  let v0 := if variantRaw.isEmpty then "minimal" else variantRaw
  let tv :=
    if imageTypeRaw.contains '/' then
      let parts := imageTypeRaw.splitOn "/"
      (parts.headD "", (parts.drop 1).headD "")
    else (imageTypeRaw, v0)
  if tv.2.isEmpty then (tv.1, "minimal") else tv

/-- Lines 548-556: `gemstone-{variant}-v2025.12-{distro}-{imageType}-{board}.img.xz`. -/
def imageFilename (e : RunEnv) : String :=
  let tv := resolveTypeVariant e.imageTypeRaw e.variantRaw
  "gemstone-" ++ tv.2 ++ "-v2025.12-" ++ e.distro ++ "-" ++ tv.1 ++ "-" ++ e.board ++ ".img.xz"

/-- Lines 584-607: the fetch target is the cache slot when caching is
enabled, else a file in the temp directory. -/
def compressedPath (e : RunEnv) : String :=
  if e.cachingEnabled then cachePath e
  else e.tempDir ++ "/gem-imager/" ++ imageFilename e

/-- Lines 634-638: the decompressed staging file, always in the temp
directory. -/
def stagingPath (e : RunEnv) : String :=
  e.tempDir ++ "/gem-imager/" ++ (imageFilename e).replace ".img.xz" ".img"

/-- Lines 570-582: the cache is used (skipping the fetch) when caching is
enabled, the stored identity is nonempty and equals the identity computed
from the requested filename, and the cache file exists, is readable and is
nonempty. -/
def useCached (e : RunEnv) (sh : Option Nat) : Bool :=
  e.cachingEnabled && sh.isSome && (sh == some (e.hashFn (imageFilename e)))
    && e.cacheExists && e.cacheReadable && (e.cacheSize != 0)

/-- The member `_cachefile` is opened only by `setCacheFile`, which has no
caller anywhere in the repository; hence `_cachefile.isOpen()` is false
throughout `run`, and both the chunk mirroring in `_writeCache` and the
removal at lines 613-614 are inert. -/
def cachefileIsOpen : Bool := false

/-- Outcome of step 1 of `run`: no image configured, campaign aborted
during acquisition, or a decompressed staging file produced. -/
inductive AcqOut where
  | noImage
  | failed
  | acquired (staging : String)
  deriving DecidableEq, Repr

/-- Lines 631-662: decompress the fetched archive into the staging file; on
failure `run` emits its own `error` after the inner one and removes the
compressed file only when it is not the cache slot; on success the
compressed file is likewise removed only when not the cache slot. -/
def extractPhase (e : RunEnv) (pre : List REv) : AcqOut × List REv :=
  let cPath := compressedPath e
  let outP := stagingPath e
  let ex := extractXzFile e.xz outP
  if ex.1 = false then
    (AcqOut.failed, pre ++ [REv.prog 40] ++ ex.2 ++ [REv.err] ++
      (if cPath ≠ cachePath e then [REv.removeF cPath] else []))
  else
    (AcqOut.acquired outP, pre ++ [REv.prog 40] ++ ex.2 ++
      (if cPath ≠ cachePath e then [REv.removeF cPath] else []) ++ [REv.prog 50])

/-- Step 1 of `run` (lines 527-663): image acquisition. -/
def acquireStep (e : RunEnv) (sh : Option Nat) : AcqOut × List REv :=
  if e.board.isEmpty || e.imageTypeRaw.isEmpty || e.distro.isEmpty then
    (AcqOut.noImage, [])
  else
    let expected := e.hashFn (imageFilename e)
    if useCached e sh then
      extractPhase e [REv.prog 5, REv.prog 40]
    else
      let rmEvs : List REv :=
        if e.cachingEnabled && e.settingsWritable && e.cacheExists then
          [REv.removeF (cachePath e)]
        else []
      let dl := downloadImage e.fetch (compressedPath e)
      if dl.1 = false then
        let cleanup : List REv :=
          if e.cachingEnabled && cachefileIsOpen then [REv.removeF (cachePath e)] else []
        (AcqOut.failed, [REv.prog 5] ++ rmEvs ++ dl.2 ++ [REv.err] ++ cleanup)
      else
        let hashEvs : List REv := if e.cachingEnabled then [REv.setHash expected] else []
        extractPhase e ([REv.prog 5] ++ rmEvs ++ dl.2 ++ hashEvs)

def bootFiles : List String := ["tiboot3.bin", "tispl.bin", "u-boot.img"]

def altSettingNames : List String := ["bootloader", "tispl.bin", "u-boot.img"]

/-- Error-path cleanup of the staging file (`if (!extractedImagePath.isEmpty())
QFile::remove(extractedImagePath)`). -/
def stagingCleanup : Option String → List REv
  | some p => [REv.removeF p]
  | none => []

/-- The bootloader-stage loop (lines 695-751): per stage, emit the current
percentage, construct a fresh `DfuWrapper`, initialize, find the device and
download; any failure emits `error`, removes the staging file and aborts.
On success the percentage advances by `20 / 3` and is emitted; all but the
last stage additionally emit the same percentage again and wait 5 seconds. -/
def bootLoop (e : RunEnv) (staging : Option String) :
    Nat → List String → Int → Bool × List REv
  | _, [], _ => (true, [])
  | i, _f :: rest, cp =>
    let st := e.stages i
    let hd : List REv := [REv.prog cp, REv.sessionNew, REv.sessionInit]
    if st.initOk = false then (false, hd ++ [REv.err] ++ stagingCleanup staging)
    else if st.findOk = false then
      (false, hd ++ [REv.sessionFind, REv.err] ++ stagingCleanup staging)
    else if st.dlOk = false then
      (false, hd ++ [REv.sessionFind, REv.sessionDownload, REv.err] ++ stagingCleanup staging)
    else
      let cp2 := cp + 20 / 3
      let inter : List REv := if rest.isEmpty then [] else [REv.prog cp2, REv.sleepS 5]
      let r := bootLoop e staging (i + 1) rest cp2
      (r.1, hd ++ [REv.sessionFind, REv.sessionDownload, REv.prog cp2] ++ inter ++ r.2)

/-- `DfuThread::sendImageToRawemmc` (lines 980-1019): a fresh session against
the `rawemmc` alt setting; each failure emits the inner `error` signal. -/
def sendImageToRawemmc (st : StageEnv) : Bool × List REv :=
  if st.initOk = false then (false, [REv.sessionNew, REv.sessionInit, REv.err])
  else if st.findOk = false then
    (false, [REv.sessionNew, REv.sessionInit, REv.sessionFind, REv.err])
  else if st.dlOk = false then
    (false, [REv.sessionNew, REv.sessionInit, REv.sessionFind, REv.prog 80,
      REv.sessionDownload, REv.err])
  else
    (true, [REv.sessionNew, REv.sessionInit, REv.sessionFind, REv.prog 80,
      REv.sessionDownload])

/-- Steps 2 and 3 of `run` (lines 665-783): verify the bootloader files
before any device interaction, run the stage loop, then either transfer the
staging image to `rawemmc` or finish directly. -/
def mainAfter (e : RunEnv) (staging : Option String) : List REv :=
  [REv.prog 52] ++
  match bootFiles.find? (fun f => !(e.bootExists (e.testFilesPath ++ "/" ++ f))) with
  | some _ => [REv.err] ++ stagingCleanup staging
  | none =>
    [REv.prog 55] ++
    (let r := bootLoop e staging 0 bootFiles 55
     r.2 ++
     (if r.1 = false then []
      else
        [REv.prog 75] ++
        match staging with
        | none => [REv.prog 100, REv.succ]
        | some p =>
          [REv.prog 78, REv.sleepS 10, REv.prog 80] ++
          (let s := sendImageToRawemmc e.raw
           s.2 ++ (if s.1 = false then [REv.err, REv.removeF p]
                   else [REv.removeF p, REv.prog 100, REv.succ]))))

/-- The whole campaign: cache initialization at construction, image
acquisition, then the transfer stages. -/
def dfuRun (e : RunEnv) : List REv :=
  let ic := initializeCache e
  let acq := acquireStep e ic.1
  ic.2 ++ acq.2 ++
    match acq.1 with
    | AcqOut.failed => []
    | AcqOut.noImage => mainAfter e none
    | AcqOut.acquired p => mainAfter e (some p)

/-! ## Trace observations -/

def progOf : REv → Option Int
  | REv.prog p => some p
  | _ => none

/-- The progress percentages of a trace, in emission order. -/
def pseq (evs : List REv) : List Int := evs.filterMap progOf

def isErrB : REv → Bool
  | REv.err => true
  | _ => false

def isSuccB : REv → Bool
  | REv.succ => true
  | _ => false

def isDeviceB : REv → Bool
  | REv.sessionNew => true
  | REv.sessionInit => true
  | REv.sessionFind => true
  | REv.sessionDownload => true
  | _ => false

def countErr (evs : List REv) : Nat := evs.countP isErrB

def countSucc (evs : List REv) : Nat := evs.countP isSuccB

def countDevice (evs : List REv) : Nat := evs.countP isDeviceB

/-- File-system effect of one event on the file at path `p` (`none` =
absent, `some n` = present with `n` bytes). -/
def fsApply (p : String) (s : Option Nat) : REv → Option Nat
  | REv.truncF q => if q = p then some 0 else s
  | REv.writeF q n => if q = p then some (s.getD 0 + n) else s
  | REv.removeF q => if q = p then none else s
  | _ => s

/-- State of the file at `p` after the trace, starting from `s0`. -/
def fileAfter (evs : List REv) (p : String) (s0 : Option Nat) : Option Nat :=
  evs.foldl (fsApply p) s0

def hashApply (s : Option Nat) : REv → Option Nat
  | REv.setHash h => some h
  | REv.clearHash => none
  | _ => s

/-- The persisted cache identity after the trace, starting from `s0`. -/
def storedHashAfter (evs : List REv) (s0 : Option Nat) : Option Nat :=
  evs.foldl hashApply s0

/-- The part of the trace strictly after the first `error` event. -/
def tailAfterFirstErr (evs : List REv) : List REv :=
  (evs.dropWhile (fun x => !(isErrB x))).drop 1

/-- Executable check that a percentage list is non-decreasing. -/
def chainLeB : List Int → Bool
  | [] => true
  | [_] => true
  | a :: b :: r => decide (a ≤ b) && chainLeB (b :: r)

/-- Executable check that a percentage list is strictly increasing. -/
def chainLtB : List Int → Bool
  | [] => true
  | [_] => true
  | a :: b :: r => decide (a < b) && chainLtB (b :: r)

theorem chainLeB_iff : ∀ l : List Int, chainLeB l = true ↔ List.Chain' (· ≤ ·) l
  | [] => by simp [chainLeB]
  | [a] => by simp [chainLeB]
  | a :: b :: r => by
    rw [List.chain'_cons]
    simp only [chainLeB, Bool.and_eq_true, decide_eq_true_eq]
    exact and_congr Iff.rfl (chainLeB_iff (b :: r))

theorem chainLtB_iff : ∀ l : List Int, chainLtB l = true ↔ List.Chain' (· < ·) l
  | [] => by simp [chainLtB]
  | [a] => by simp [chainLtB]
  | a :: b :: r => by
    rw [List.chain'_cons]
    simp only [chainLtB, Bool.and_eq_true, decide_eq_true_eq]
    exact and_congr Iff.rfl (chainLtB_iff (b :: r))

/-! ## Claim C9 -/

/-- The all-success scenario of testable-property 1: no image configured
(board/type/distro empty), every bootloader file present, every stage
succeeds on the first attempt. -/
def c9Env : RunEnv :=
  ⟨"", "", "", "", "/tf", "/cd", "/td", false, none, fun _ => 0, false, false, 0, false,
   ⟨true, [], [], false, 0⟩, ⟨true, true, true, [], XzEnd.finish 0 true⟩,
   fun _ => true, fun _ => ⟨true, true, true⟩, ⟨true, true, true⟩⟩

/-- Claim C9 counterexample: in the all-success scenario the emitted
progress sequence repeats values (55 is emitted twice in a row, 61 and 67
three times each), so it is not strictly increasing as claimed. -/
theorem run_progress_not_strictly_increasing :
    ¬ List.Chain' (· < ·) (pseq (dfuRun c9Env)) := by
  rw [← chainLtB_iff]
  decide

/-- Claim C9 amended: in the all-success scenario with no image stage the
campaign emits the monotonically non-decreasing (but not strictly
increasing) progress sequence 52, 55, 55, 61, 61, 61, 67, 67, 67, 73, 75,
100 — reaching the bootloader-loop ceiling 75 and ending at 100 — and the
trace ends with the single success event, with no error emitted. -/
theorem run_all_success_scenario :
    pseq (dfuRun c9Env) = [52, 55, 55, 61, 61, 61, 67, 67, 67, 73, 75, 100] ∧
    List.Chain' (· ≤ ·) (pseq (dfuRun c9Env)) ∧
    (dfuRun c9Env).getLast? = some REv.succ ∧
    countSucc (dfuRun c9Env) = 1 ∧ countErr (dfuRun c9Env) = 0 := by
  refine ⟨by decide, ?_, by decide, by decide, by decide⟩
  rw [← chainLeB_iff]
  decide

/-! ## Claim C10 -/

/-- Cleanup behaviour of `extractXzFile`: a failure of the streaming loop
removes the output file, but a decoder-initialization failure returns false
leaving a freshly truncated (zero-byte) file at the output path. -/
def XzCleanupPolicy (x : XzEnv) (o : String) (s0 : Option Nat) : Prop :=
  (x.inOpenOk = true → x.outOpenOk = true → x.initOk = true →
    (extractXzFile x o).1 = false → fileAfter (extractXzFile x o).2 o s0 = none) ∧
  (x.inOpenOk = true → x.outOpenOk = true → x.initOk = false →
    (extractXzFile x o).1 = false ∧ fileAfter (extractXzFile x o).2 o s0 = some 0)

theorem fileAfter_append_remove (l : List REv) (p : String) (s0 : Option Nat) :
    fileAfter (l ++ [REv.removeF p]) p s0 = none := by
  simp [fileAfter, List.foldl_append, fsApply]

/-- Claim C10 amended: failures inside the decompression loop (read error,
short write, decoder error while decoding, short write of the final flush)
remove the partially written output file before `extractXzFile` returns
false; a decoder-initialization failure, however, returns false with an
empty file left at the output path. -/
theorem extractXz_cleanup (x : XzEnv) (o : String) (s0 : Option Nat) :
    XzCleanupPolicy x o s0 := by
  constructor
  · intro hin hout hinit hfail
    simp only [extractXzFile, hin, hout, hinit] at hfail ⊢
    simp only [Bool.true_eq_false, if_false] at hfail ⊢
    cases hend : x.ending with
    | readErr =>
      simp only [hend]
      rw [show [REv.truncF o] ++ (xzFlushes o x.flushes 0 40).1 ++ [REv.err, REv.removeF o]
          = ([REv.truncF o] ++ (xzFlushes o x.flushes 0 40).1 ++ [REv.err]) ++ [REv.removeF o]
          by simp]
      exact fileAfter_append_remove _ o s0
    | writeErr n =>
      simp only [hend]
      rw [show [REv.truncF o] ++ (xzFlushes o x.flushes 0 40).1 ++ [REv.err, REv.removeF o]
          = ([REv.truncF o] ++ (xzFlushes o x.flushes 0 40).1 ++ [REv.err]) ++ [REv.removeF o]
          by simp]
      exact fileAfter_append_remove _ o s0
    | decodeErr k =>
      simp only [hend]
      rw [show [REv.truncF o] ++ (xzFlushes o x.flushes 0 40).1 ++ [REv.err, REv.removeF o]
          = ([REv.truncF o] ++ (xzFlushes o x.flushes 0 40).1 ++ [REv.err]) ++ [REv.removeF o]
          by simp]
      exact fileAfter_append_remove _ o s0
    | finish n ok =>
      cases hok : ok with
      | false =>
        simp only [hend, hok]
        rw [show [REv.truncF o] ++ (xzFlushes o x.flushes 0 40).1 ++ [REv.err, REv.removeF o]
            = ([REv.truncF o] ++ (xzFlushes o x.flushes 0 40).1 ++ [REv.err]) ++ [REv.removeF o]
            by simp]
        exact fileAfter_append_remove _ o s0
      | true =>
        exfalso
        simp [hend, hok] at hfail
  · intro hin hout hinit
    simp [extractXzFile, hin, hout, hinit, fileAfter, fsApply]

/-- Concrete environment for C10: decoder initialization fails with the
input and output files open. -/
def c10Env : XzEnv := ⟨true, true, false, [], XzEnd.readErr⟩

/-- Claim C10 counterexample: with the decoder failing to initialize,
`extractXzFile` returns false yet a (zero-byte) file exists at the output
path, so a file at the output path does not imply that extraction returned
true, and the failing call did not remove it. -/
theorem extractXz_init_failure_leaves_file :
    (extractXzFile c10Env "/out").1 = false ∧
    fileAfter (extractXzFile c10Env "/out").2 "/out" none = some 0 := by decide

theorem extractXz_cleanup_witness : XzCleanupPolicy c10Env "/out" none :=
  extractXz_cleanup c10Env "/out" none

/-! ## Event census of the trace segments -/

theorem countP_map_prog (q : REv → Bool) (h : ∀ i : Int, q (REv.prog i) = false)
    (l : List Int) : (l.map REv.prog).countP q = 0 := by
  induction l with
  | nil => simp
  | cons a r ih => simp [List.countP_cons, h, ih]

theorem countP_map_writeF (q : REv → Bool) (p : String)
    (h : ∀ n : Nat, q (REv.writeF p n) = false) (l : List Nat) :
    (l.map (fun n => REv.writeF p n)).countP q = 0 := by
  induction l with
  | nil => simp
  | cons a r ih => simp [List.countP_cons, h, ih]

theorem downloadImage_census (f : FetchEnv) (p : String) :
    countSucc (downloadImage f p).2 = 0 ∧ countDevice (downloadImage f p).2 = 0 ∧
    ((downloadImage f p).1 = true → countErr (downloadImage f p).2 = 0) ∧
    countErr (downloadImage f p).2 ≤ 1 := by
  have hps := countP_map_prog isSuccB (fun _ => rfl) (fetchPcts f)
  have hpe := countP_map_prog isErrB (fun _ => rfl) (fetchPcts f)
  have hpd := countP_map_prog isDeviceB (fun _ => rfl) (fetchPcts f)
  have hws := countP_map_writeF isSuccB p (fun _ => rfl) f.chunkSizes
  have hwe := countP_map_writeF isErrB p (fun _ => rfl) f.chunkSizes
  have hwd := countP_map_writeF isDeviceB p (fun _ => rfl) f.chunkSizes
  unfold downloadImage
  split_ifs with h1 h2 <;>
    simp [countErr, countSucc, countDevice, List.countP_append, List.countP_cons,
      isErrB, isSuccB, isDeviceB, hps, hpe, hpd, hws, hwe, hwd, -List.countP_eq_zero]

theorem xzFlushes_census (o : String) :
    ∀ l tw lp, countErr (xzFlushes o l tw lp).1 = 0 ∧
      countSucc (xzFlushes o l tw lp).1 = 0 ∧
      countDevice (xzFlushes o l tw lp).1 = 0 := by
  intro l
  induction l with
  | nil => intro tw lp; simp [xzFlushes, countErr, countSucc, countDevice]
  | cons n rest ih =>
    intro tw lp
    simp only [xzFlushes]
    by_cases h : lp < xzProgress (tw + n)
    · have ihr := ih (tw + n) (xzProgress (tw + n))
      simp only [countErr, countSucc, countDevice] at ihr
      simp [h, countErr, countSucc, countDevice, List.countP_append, List.countP_cons,
        isErrB, isSuccB, isDeviceB, ihr.1, ihr.2.1, ihr.2.2, -List.countP_eq_zero]
    · have ihr := ih (tw + n) lp
      simp only [countErr, countSucc, countDevice] at ihr
      simp [h, countErr, countSucc, countDevice, List.countP_append, List.countP_cons,
        isErrB, isSuccB, isDeviceB, ihr.1, ihr.2.1, ihr.2.2, -List.countP_eq_zero]

theorem extractXzFile_census (x : XzEnv) (o : String) :
    countSucc (extractXzFile x o).2 = 0 ∧ countDevice (extractXzFile x o).2 = 0 ∧
    ((extractXzFile x o).1 = true → countErr (extractXzFile x o).2 = 0) ∧
    countErr (extractXzFile x o).2 ≤ 1 := by
  have hf := xzFlushes_census o x.flushes 0 40
  simp only [countErr, countSucc, countDevice] at hf
  unfold extractXzFile
  split_ifs with h1 h2 h3
  · simp [countErr, countSucc, countDevice, isErrB, isSuccB, isDeviceB,
      -List.countP_eq_zero]
  · simp [countErr, countSucc, countDevice, isErrB, isSuccB, isDeviceB,
      -List.countP_eq_zero]
  · simp [countErr, countSucc, countDevice, isErrB, isSuccB, isDeviceB,
      -List.countP_eq_zero]
  · cases hend : x.ending with
    | finish n ok =>
      cases hok : ok
      · simp [countErr, countSucc, countDevice, List.countP_append, List.countP_cons,
          isErrB, isSuccB, isDeviceB, hf.1, hf.2.1, hf.2.2, -List.countP_eq_zero]
      · simp [countErr, countSucc, countDevice, List.countP_append, List.countP_cons,
          isErrB, isSuccB, isDeviceB, hf.1, hf.2.1, hf.2.2, -List.countP_eq_zero]
        split_ifs <;>
          simp [List.countP_cons, isErrB, isSuccB, isDeviceB, -List.countP_eq_zero]
    | readErr =>
      simp [countErr, countSucc, countDevice, List.countP_append, List.countP_cons,
        isErrB, isSuccB, isDeviceB, hf.1, hf.2.1, hf.2.2, -List.countP_eq_zero]
    | writeErr n =>
      simp [countErr, countSucc, countDevice, List.countP_append, List.countP_cons,
        isErrB, isSuccB, isDeviceB, hf.1, hf.2.1, hf.2.2, -List.countP_eq_zero]
    | decodeErr k =>
      simp [countErr, countSucc, countDevice, List.countP_append, List.countP_cons,
        isErrB, isSuccB, isDeviceB, hf.1, hf.2.1, hf.2.2, -List.countP_eq_zero]

theorem countP_ite_single (c : Prop) [Decidable c] (x : REv) (q : REv → Bool)
    (hq : q x = false) :
    List.countP q (if c then [x] else []) = 0 := by
  split_ifs <;> simp [hq]

theorem extractPhase_census (e : RunEnv) (pre : List REv) :
    countSucc (extractPhase e pre).2 = countSucc pre ∧
    countDevice (extractPhase e pre).2 = countDevice pre ∧
    ((extractPhase e pre).1 ≠ AcqOut.failed →
      countErr (extractPhase e pre).2 = countErr pre) := by
  have hx := extractXzFile_census e.xz (stagingPath e)
  simp only [countErr, countSucc, countDevice] at hx
  simp only [countErr, countSucc, countDevice, extractPhase]
  split_ifs with h1 h2
  · simp [List.countP_append, List.countP_cons, isErrB, isSuccB, isDeviceB,
      hx.1, hx.2.1, -List.countP_eq_zero]
  · simp [List.countP_append, List.countP_cons, isErrB, isSuccB, isDeviceB,
      hx.1, hx.2.1, -List.countP_eq_zero]
  · have h1' : (extractXzFile e.xz (stagingPath e)).1 = true := by simpa using h1
    simp [List.countP_append, List.countP_cons, isErrB, isSuccB, isDeviceB,
      hx.1, hx.2.1, hx.2.2.1 h1', -List.countP_eq_zero]
  · have h1' : (extractXzFile e.xz (stagingPath e)).1 = true := by simpa using h1
    simp [List.countP_append, List.countP_cons, isErrB, isSuccB, isDeviceB,
      hx.1, hx.2.1, hx.2.2.1 h1', -List.countP_eq_zero]

theorem initializeCache_census (e : RunEnv) :
    countErr (initializeCache e).2 = 0 ∧ countSucc (initializeCache e).2 = 0 ∧
    countDevice (initializeCache e).2 = 0 := by
  unfold initializeCache
  cases e.storedHash0 with
  | none => simp [countErr, countSucc, countDevice]
  | some h =>
    split_ifs <;> simp [countErr, countSucc, countDevice, isErrB, isSuccB, isDeviceB]

theorem acquireStep_census (e : RunEnv) (sh : Option Nat) :
    countSucc (acquireStep e sh).2 = 0 ∧ countDevice (acquireStep e sh).2 = 0 ∧
    ((acquireStep e sh).1 ≠ AcqOut.failed → countErr (acquireStep e sh).2 = 0) := by
  have hdl := downloadImage_census e.fetch (compressedPath e)
  simp only [countErr, countSucc, countDevice] at hdl
  by_cases h1 : (e.board.isEmpty || e.imageTypeRaw.isEmpty || e.distro.isEmpty) = true
  · simp [acquireStep, h1, countErr, countSucc, countDevice, -List.countP_eq_zero]
  · by_cases h2 : useCached e sh = true
    · have hstep : acquireStep e sh = extractPhase e [REv.prog 5, REv.prog 40] := by
        simp [acquireStep, h1, h2]
      have hep := extractPhase_census e [REv.prog 5, REv.prog 40]
      rw [hstep, hep.1, hep.2.1]
      refine ⟨by simp [countSucc, isSuccB], by simp [countDevice, isDeviceB], fun h => ?_⟩
      rw [hep.2.2 h]
      simp [countErr, isErrB]
    · by_cases h3 : (downloadImage e.fetch (compressedPath e)).1 = false
      · have hstep : acquireStep e sh =
            (AcqOut.failed,
              [REv.prog 5] ++
                (if (e.cachingEnabled && e.settingsWritable && e.cacheExists) = true then
                  [REv.removeF (cachePath e)] else []) ++
                (downloadImage e.fetch (compressedPath e)).2 ++ [REv.err]) := by
          simp [acquireStep, h1, h2, h3, cachefileIsOpen]
        rw [hstep]
        refine ⟨?_, ?_, fun h => absurd rfl h⟩ <;>
          simp [countErr, countSucc, countDevice, List.countP_append, List.countP_cons,
            countP_ite_single, isErrB, isSuccB, isDeviceB, hdl.1, hdl.2.1,
            -List.countP_eq_zero]
      · have hstep : acquireStep e sh = extractPhase e
            ([REv.prog 5] ++
              (if (e.cachingEnabled && e.settingsWritable && e.cacheExists) = true then
                [REv.removeF (cachePath e)] else []) ++
              (downloadImage e.fetch (compressedPath e)).2 ++
              (if e.cachingEnabled = true then
                [REv.setHash (e.hashFn (imageFilename e))] else [])) := by
          simp [acquireStep, h1, h2, h3]
        have hep := extractPhase_census e
          ([REv.prog 5] ++
            (if (e.cachingEnabled && e.settingsWritable && e.cacheExists) = true then
              [REv.removeF (cachePath e)] else []) ++
            (downloadImage e.fetch (compressedPath e)).2 ++
            (if e.cachingEnabled = true then
              [REv.setHash (e.hashFn (imageFilename e))] else []))
        have hde : List.countP isErrB (downloadImage e.fetch (compressedPath e)).2 = 0 := by
          apply hdl.2.2.1
          cases hb : (downloadImage e.fetch (compressedPath e)).1
          · exact absurd hb h3
          · rfl
        rw [hstep]
        refine ⟨?_, ?_, fun h => ?_⟩
        · rw [hep.1]
          simp [countSucc, List.countP_append, List.countP_cons, countP_ite_single,
            isSuccB, hdl.1, -List.countP_eq_zero]
        · rw [hep.2.1]
          simp [countDevice, List.countP_append, List.countP_cons, countP_ite_single,
            isDeviceB, hdl.2.1, -List.countP_eq_zero]
        · rw [hep.2.2 h]
          simp [countErr, List.countP_append, List.countP_cons, countP_ite_single,
            isErrB, hde, -List.countP_eq_zero]

/-! ## Shape of the acquisition outcome -/

theorem extractPhase_not_noImage (e : RunEnv) (pre : List REv) :
    (extractPhase e pre).1 ≠ AcqOut.noImage := by
  simp only [extractPhase]
  split_ifs <;> simp

theorem acquireStep_noImage_evs (e : RunEnv) (sh : Option Nat)
    (h : (acquireStep e sh).1 = AcqOut.noImage) : (acquireStep e sh).2 = [] := by
  by_cases h1 : (e.board.isEmpty || e.imageTypeRaw.isEmpty || e.distro.isEmpty) = true
  · simp [acquireStep, h1]
  · exfalso
    simp only [acquireStep] at h
    split_ifs at h
    all_goals first
      | exact extractPhase_not_noImage e _ h
      | simp at h

theorem acquireStep_acquired_path (e : RunEnv) (sh : Option Nat) (p : String)
    (h : (acquireStep e sh).1 = AcqOut.acquired p) : p = stagingPath e := by
  have hep : ∀ pre, (extractPhase e pre).1 = AcqOut.acquired p → p = stagingPath e := by
    intro pre hh
    simp only [extractPhase] at hh
    split_ifs at hh <;> simp_all
  simp only [acquireStep] at h
  split_ifs at h
  all_goals first
    | exact hep _ h
    | simp at h

/-! ## Claim C7 -/

theorem fileAfter_append (l1 l2 : List REv) (p : String) (s : Option Nat) :
    fileAfter (l1 ++ l2) p s = fileAfter l2 p (fileAfter l1 p s) := by
  simp [fileAfter, List.foldl_append]

theorem initializeCache_fileNeutral (e : RunEnv) (p : String) (s : Option Nat) :
    fileAfter (initializeCache e).2 p s = s := by
  unfold initializeCache
  cases e.storedHash0 with
  | none => simp [fileAfter]
  | some h => split_ifs <;> simp [fileAfter, fsApply]

/-- When a bootloader file is missing the campaign emits exactly one error,
no success, interacts with no device session, and the staging file is absent
at the end. -/
def FileNotFoundPolicy (e : RunEnv) : Prop :=
  countDevice (dfuRun e) = 0 ∧ countSucc (dfuRun e) = 0 ∧ countErr (dfuRun e) = 1 ∧
  fileAfter (dfuRun e) (stagingPath e) none = none

/-- Claim C7: if any bootloader file is missing (and the campaign was not
already aborted during image acquisition), the campaign fails before any
device interaction — no DFU session is constructed for any stage — and any
staging file produced by image acquisition is removed before returning. -/
theorem run_missing_bootfile (e : RunEnv)
    (hmiss : ∃ f ∈ bootFiles, e.bootExists (e.testFilesPath ++ "/" ++ f) = false)
    (hacq : (acquireStep e (initializeCache e).1).1 ≠ AcqOut.failed) :
    FileNotFoundPolicy e := by
  have hfind : ∃ g, bootFiles.find?
      (fun f => !(e.bootExists (e.testFilesPath ++ "/" ++ f))) = some g := by
    rw [← Option.isSome_iff_exists, List.find?_isSome]
    obtain ⟨f, hf, hb⟩ := hmiss
    exact ⟨f, hf, by simp [hb]⟩
  obtain ⟨g, hg⟩ := hfind
  have hmain : ∀ st, mainAfter e st = [REv.prog 52] ++ ([REv.err] ++ stagingCleanup st) := by
    intro st
    simp [mainAfter, hg]
  have hic := initializeCache_census e
  have hacqc := acquireStep_census e (initializeCache e).1
  have hacqe := hacqc.2.2 hacq
  simp only [countErr, countSucc, countDevice] at hic hacqc hacqe
  cases hout : (acquireStep e (initializeCache e).1).1 with
  | failed => exact absurd hout hacq
  | noImage =>
    have hae := acquireStep_noImage_evs e _ hout
    have hrun : dfuRun e =
        (initializeCache e).2 ++ (acquireStep e (initializeCache e).1).2 ++ mainAfter e none := by
      simp [dfuRun, hout]
    rw [FileNotFoundPolicy, hrun, hmain none]
    refine ⟨?_, ?_, ?_, ?_⟩
    · simp [countDevice, List.countP_append, List.countP_cons, isDeviceB,
        hic.2.2, hacqc.2.1, stagingCleanup, -List.countP_eq_zero]
    · simp [countSucc, List.countP_append, List.countP_cons, isSuccB,
        hic.2.1, hacqc.1, stagingCleanup, -List.countP_eq_zero]
    · simp [countErr, List.countP_append, List.countP_cons, isErrB,
        hic.1, hacqe, stagingCleanup, -List.countP_eq_zero]
    · rw [hae]
      simp only [stagingCleanup, List.append_nil]
      rw [fileAfter_append, initializeCache_fileNeutral]
      rfl
  | acquired p =>
    have hp := acquireStep_acquired_path e _ p hout
    have hrun : dfuRun e =
        (initializeCache e).2 ++ (acquireStep e (initializeCache e).1).2 ++ mainAfter e (some p) := by
      simp [dfuRun, hout]
    rw [FileNotFoundPolicy, hrun, hmain (some p)]
    refine ⟨?_, ?_, ?_, ?_⟩
    · simp [countDevice, List.countP_append, List.countP_cons, isDeviceB,
        hic.2.2, hacqc.2.1, stagingCleanup, -List.countP_eq_zero]
    · simp [countSucc, List.countP_append, List.countP_cons, isSuccB,
        hic.2.1, hacqc.1, stagingCleanup, -List.countP_eq_zero]
    · simp [countErr, List.countP_append, List.countP_cons, isErrB,
        hic.1, hacqe, stagingCleanup, -List.countP_eq_zero]
    · have hassoc :
          (initializeCache e).2 ++ (acquireStep e (initializeCache e).1).2 ++
            ([REv.prog 52] ++ ([REv.err] ++ stagingCleanup (some p))) =
          ((initializeCache e).2 ++ (acquireStep e (initializeCache e).1).2 ++
            [REv.prog 52, REv.err]) ++ [REv.removeF p] := by
        simp [stagingCleanup]
      rw [hassoc, hp]
      exact fileAfter_append_remove _ _ _

/-- Concrete environment for C7: no image configured and every bootloader
file missing. -/
def c7Env : RunEnv :=
  ⟨"", "", "", "", "/tf", "/cd", "/td", false, none, fun _ => 0, false, false, 0, false,
   ⟨true, [], [], false, 0⟩, ⟨true, true, true, [], XzEnd.finish 0 true⟩,
   fun _ => false, fun _ => ⟨true, true, true⟩, ⟨true, true, true⟩⟩

theorem run_missing_bootfile_witness : FileNotFoundPolicy c7Env :=
  run_missing_bootfile c7Env ⟨"tiboot3.bin", by decide, rfl⟩ (by decide)

/-! ## Network-fetch and cache-identity events of each segment -/

def isNetFetchB : REv → Bool
  | REv.netFetch => true
  | _ => false

def isHashEv : REv → Bool
  | REv.setHash _ => true
  | REv.clearHash => true
  | _ => false

/-- Number of network fetches started by the trace. -/
def countFetch (l : List REv) : Nat := l.countP isNetFetchB

theorem storedHashAfter_append (l1 l2 : List REv) (s : Option Nat) :
    storedHashAfter (l1 ++ l2) s = storedHashAfter l2 (storedHashAfter l1 s) := by
  simp [storedHashAfter, List.foldl_append]

theorem storedHashAfter_neutral (l : List REv) :
    ∀ s : Option Nat, l.countP isHashEv = 0 → storedHashAfter l s = s := by
  induction l with
  | nil => intro s _; rfl
  | cons x r ih =>
    intro s h
    rw [List.countP_cons] at h
    have hx : isHashEv x = false := by
      cases hq : isHashEv x
      · rfl
      · simp [hq] at h
    have hr : r.countP isHashEv = 0 := by omega
    have happ : hashApply s x = s := by
      cases x <;> first | rfl | simp [isHashEv] at hx
    calc storedHashAfter (x :: r) s = storedHashAfter r (hashApply s x) := rfl
      _ = storedHashAfter r s := by rw [happ]
      _ = s := ih s hr

theorem countP_stagingCleanup (q : REv → Bool) (st : Option String)
    (h : ∀ p, q (REv.removeF p) = false) :
    List.countP q (stagingCleanup st) = 0 := by
  cases st <;> simp [stagingCleanup, h]

theorem bootLoop_no_netFetch_hash (e : RunEnv) (staging : Option String) :
    ∀ l i cp, List.countP isNetFetchB (bootLoop e staging i l cp).2 = 0 ∧
      List.countP isHashEv (bootLoop e staging i l cp).2 = 0 := by
  intro l
  induction l with
  | nil => intro i cp; simp [bootLoop]
  | cons f rest ih =>
    intro i cp
    have ihr := ih (i + 1) (cp + 6)
    have hsc1 := countP_stagingCleanup isNetFetchB staging (fun _ => rfl)
    have hsc2 := countP_stagingCleanup isHashEv staging (fun _ => rfl)
    simp only [bootLoop]
    by_cases hI : (e.stages i).initOk = false
    · simp [hI, List.countP_append, List.countP_cons, isNetFetchB, isHashEv, hsc1, hsc2,
        -List.countP_eq_zero]
    · by_cases hF : (e.stages i).findOk = false
      · simp [hI, hF, List.countP_append, List.countP_cons, isNetFetchB, isHashEv,
          hsc1, hsc2, -List.countP_eq_zero]
      · by_cases hD : (e.stages i).dlOk = false
        · simp [hI, hF, hD, List.countP_append, List.countP_cons, isNetFetchB, isHashEv,
            hsc1, hsc2, -List.countP_eq_zero]
        · by_cases hrest : rest.isEmpty <;>
            simp [hI, hF, hD, hrest, List.countP_append, List.countP_cons, isNetFetchB,
              isHashEv, ihr.1, ihr.2, -List.countP_eq_zero]

theorem sendImageToRawemmc_no_netFetch_hash (st : StageEnv) :
    List.countP isNetFetchB (sendImageToRawemmc st).2 = 0 ∧
    List.countP isHashEv (sendImageToRawemmc st).2 = 0 := by
  unfold sendImageToRawemmc
  split_ifs <;> simp [isNetFetchB, isHashEv, -List.countP_eq_zero]

theorem mainAfter_no_netFetch_hash (e : RunEnv) (st : Option String) :
    List.countP isNetFetchB (mainAfter e st) = 0 ∧
    List.countP isHashEv (mainAfter e st) = 0 := by
  have hb := bootLoop_no_netFetch_hash e st bootFiles 0 55
  have hsc1 := countP_stagingCleanup isNetFetchB st (fun _ => rfl)
  have hsc2 := countP_stagingCleanup isHashEv st (fun _ => rfl)
  unfold mainAfter
  cases hf : bootFiles.find? (fun f => !(e.bootExists (e.testFilesPath ++ "/" ++ f))) with
  | some g =>
    simp [List.countP_append, List.countP_cons, isNetFetchB, isHashEv, hsc1, hsc2,
      -List.countP_eq_zero]
  | none =>
    cases hr : (bootLoop e st 0 bootFiles 55).1
    · simp [hr, List.countP_append, List.countP_cons, isNetFetchB, isHashEv,
        hb.1, hb.2, -List.countP_eq_zero]
    · cases st with
      | none =>
        simp [hr, List.countP_append, List.countP_cons, isNetFetchB, isHashEv,
          hb.1, hb.2, -List.countP_eq_zero]
      | some p =>
        have hs := sendImageToRawemmc_no_netFetch_hash e.raw
        cases hsr : (sendImageToRawemmc e.raw).1 <;>
          simp [hr, hsr, List.countP_append, List.countP_cons, isNetFetchB, isHashEv,
            hb.1, hb.2, hs.1, hs.2, -List.countP_eq_zero]

theorem downloadImage_fetch_hash (f : FetchEnv) (p : String) :
    countFetch (downloadImage f p).2 = 1 ∧
    List.countP isHashEv (downloadImage f p).2 = 0 := by
  have h1 := countP_map_prog isNetFetchB (fun _ => rfl) (fetchPcts f)
  have h2 := countP_map_writeF isNetFetchB p (fun _ => rfl) f.chunkSizes
  have h3 := countP_map_prog isHashEv (fun _ => rfl) (fetchPcts f)
  have h4 := countP_map_writeF isHashEv p (fun _ => rfl) f.chunkSizes
  unfold downloadImage countFetch
  split_ifs <;>
    simp [List.countP_append, List.countP_cons, isNetFetchB, isHashEv, h1, h2, h3, h4,
      -List.countP_eq_zero]

theorem xzFlushes_no_netFetch_hash (o : String) :
    ∀ l tw lp, List.countP isNetFetchB (xzFlushes o l tw lp).1 = 0 ∧
      List.countP isHashEv (xzFlushes o l tw lp).1 = 0 := by
  intro l
  induction l with
  | nil => intro tw lp; simp [xzFlushes]
  | cons n rest ih =>
    intro tw lp
    simp only [xzFlushes]
    by_cases h : lp < xzProgress (tw + n)
    · have ihr := ih (tw + n) (xzProgress (tw + n))
      simp [h, List.countP_append, List.countP_cons, isNetFetchB, isHashEv,
        ihr.1, ihr.2, -List.countP_eq_zero]
    · have ihr := ih (tw + n) lp
      simp [h, List.countP_append, List.countP_cons, isNetFetchB, isHashEv,
        ihr.1, ihr.2, -List.countP_eq_zero]

theorem extractXzFile_no_netFetch_hash (x : XzEnv) (o : String) :
    List.countP isNetFetchB (extractXzFile x o).2 = 0 ∧
    List.countP isHashEv (extractXzFile x o).2 = 0 := by
  have hf := xzFlushes_no_netFetch_hash o x.flushes 0 40
  unfold extractXzFile
  split_ifs with h1 h2 h3
  · simp [isNetFetchB, isHashEv, -List.countP_eq_zero]
  · simp [isNetFetchB, isHashEv, -List.countP_eq_zero]
  · simp [isNetFetchB, isHashEv, -List.countP_eq_zero]
  · cases hend : x.ending with
    | finish n ok =>
      cases hok : ok
      · simp [List.countP_append, List.countP_cons, isNetFetchB, isHashEv,
          hf.1, hf.2, -List.countP_eq_zero]
      · simp [List.countP_append, List.countP_cons, isNetFetchB, isHashEv,
          hf.1, hf.2, -List.countP_eq_zero]
        split_ifs <;> simp [List.countP_cons, isNetFetchB, isHashEv, -List.countP_eq_zero]
    | readErr =>
      simp [List.countP_append, List.countP_cons, isNetFetchB, isHashEv,
        hf.1, hf.2, -List.countP_eq_zero]
    | writeErr n =>
      simp [List.countP_append, List.countP_cons, isNetFetchB, isHashEv,
        hf.1, hf.2, -List.countP_eq_zero]
    | decodeErr k =>
      simp [List.countP_append, List.countP_cons, isNetFetchB, isHashEv,
        hf.1, hf.2, -List.countP_eq_zero]

theorem extractPhase_fetch_hash (e : RunEnv) (pre : List REv) :
    countFetch (extractPhase e pre).2 = countFetch pre ∧
    List.countP isHashEv (extractPhase e pre).2 = List.countP isHashEv pre := by
  have hx := extractXzFile_no_netFetch_hash e.xz (stagingPath e)
  simp only [extractPhase, countFetch]
  split_ifs <;>
    simp [List.countP_append, List.countP_cons, isNetFetchB, isHashEv,
      hx.1, hx.2, -List.countP_eq_zero]

theorem initializeCache_no_netFetch (e : RunEnv) :
    countFetch (initializeCache e).2 = 0 := by
  unfold initializeCache countFetch
  cases e.storedHash0 with
  | none => rfl
  | some h => split_ifs <;> simp [isNetFetchB]

/-! ## Claim C5 -/

/-- The code's cache-use test (which also checks that the stored identity is
nonempty) is equivalent to the spec's four-condition form: the nonemptiness
check is subsumed because the computed identity is itself a value. -/
theorem useCached_iff_spec (e : RunEnv) (sh : Option Nat) :
    useCached e sh = true ↔
      (e.cachingEnabled = true ∧ sh = some (e.hashFn (imageFilename e)) ∧
       e.cacheExists = true ∧ e.cacheReadable = true ∧ e.cacheSize ≠ 0) := by
  unfold useCached
  cases sh with
  | none => simp
  | some h =>
    simp [Bool.and_eq_true, bne_iff_ne]
    tauto

theorem initializeCache_clears (e : RunEnv) (_h0 : e.storedHash0 ≠ none)
    (hbad : e.cacheExists = false ∨ e.cacheReadable = false ∨ e.cacheSize = 0) :
    (initializeCache e).1 = none := by
  unfold initializeCache
  cases hs : e.storedHash0 with
  | none => rfl
  | some h => simp [hbad]

theorem initializeCache_good (e : RunEnv) (h1 : e.cacheExists = true)
    (h2 : e.cacheReadable = true) (h3 : e.cacheSize ≠ 0) :
    initializeCache e = (e.storedHash0, []) := by
  unfold initializeCache
  cases e.storedHash0 with
  | none => rfl
  | some h =>
    have hcond : ¬ (e.cacheExists = false ∨ e.cacheReadable = false ∨ e.cacheSize = 0) := by
      rintro (hb | hb | hb) <;> simp_all
    simp [hcond]

/-- The fetch count of the acquisition step: zero when the cache is used,
one otherwise. -/
theorem acquireStep_countFetch (e : RunEnv) (sh : Option Nat)
    (hdo : (e.board.isEmpty || e.imageTypeRaw.isEmpty || e.distro.isEmpty) = false) :
    countFetch (acquireStep e sh).2 =
      (if useCached e sh = true then 0 else 1) := by
  have hdl := downloadImage_fetch_hash e.fetch (compressedPath e)
  by_cases h2 : useCached e sh = true
  · have hstep : acquireStep e sh = extractPhase e [REv.prog 5, REv.prog 40] := by
      simp [acquireStep, hdo, h2]
    rw [hstep, if_pos h2, (extractPhase_fetch_hash e _).1]
    rfl
  · rw [if_neg h2]
    by_cases h3 : (downloadImage e.fetch (compressedPath e)).1 = false
    · have hstep : acquireStep e sh =
          (AcqOut.failed,
            [REv.prog 5] ++
              (if (e.cachingEnabled && e.settingsWritable && e.cacheExists) = true then
                [REv.removeF (cachePath e)] else []) ++
              (downloadImage e.fetch (compressedPath e)).2 ++ [REv.err]) := by
        simp [acquireStep, hdo, h2, h3, cachefileIsOpen]
      rw [hstep]
      simp only [countFetch] at hdl ⊢
      simp [List.countP_append, List.countP_cons, countP_ite_single, isNetFetchB,
        hdl.1, -List.countP_eq_zero]
    · have hstep : acquireStep e sh = extractPhase e
          ([REv.prog 5] ++
            (if (e.cachingEnabled && e.settingsWritable && e.cacheExists) = true then
              [REv.removeF (cachePath e)] else []) ++
            (downloadImage e.fetch (compressedPath e)).2 ++
            (if e.cachingEnabled = true then
              [REv.setHash (e.hashFn (imageFilename e))] else [])) := by
        simp [acquireStep, hdo, h2, h3]
      rw [hstep, (extractPhase_fetch_hash e _).1]
      simp only [countFetch] at hdl ⊢
      simp [List.countP_append, List.countP_cons, countP_ite_single, isNetFetchB,
        hdl.1, -List.countP_eq_zero]

/-- The number of network fetches of a whole campaign that has an image
configured: zero exactly when the cache is used. -/
theorem dfuRun_countFetch (e : RunEnv)
    (hdo : (e.board.isEmpty || e.imageTypeRaw.isEmpty || e.distro.isEmpty) = false) :
    countFetch (dfuRun e) =
      (if useCached e (initializeCache e).1 = true then 0 else 1) := by
  have hic := initializeCache_no_netFetch e
  have hacq := acquireStep_countFetch e (initializeCache e).1 hdo
  simp only [countFetch] at hic hacq ⊢
  cases hout : (acquireStep e (initializeCache e).1).1 with
  | failed =>
    have : dfuRun e = (initializeCache e).2 ++ (acquireStep e (initializeCache e).1).2 := by
      simp [dfuRun, hout]
    rw [this]
    simp [List.countP_append, hic, hacq, -List.countP_eq_zero]
  | noImage =>
    have : dfuRun e = (initializeCache e).2 ++ (acquireStep e (initializeCache e).1).2 ++
        mainAfter e none := by
      simp [dfuRun, hout]
    rw [this]
    have hm := (mainAfter_no_netFetch_hash e none).1
    simp [List.countP_append, hic, hacq, hm, -List.countP_eq_zero]
  | acquired p =>
    have : dfuRun e = (initializeCache e).2 ++ (acquireStep e (initializeCache e).1).2 ++
        mainAfter e (some p) := by
      simp [dfuRun, hout]
    rw [this]
    have hm := (mainAfter_no_netFetch_hash e (some p)).1
    simp [List.countP_append, hic, hacq, hm, -List.countP_eq_zero]

/-- Cache policy of the campaign: (i) for an image-configured campaign the
network fetch is skipped exactly when caching is enabled, the stored
identity (after cache initialization) equals the identity computed from the
requested filename, and the cache file exists, is readable and is nonempty;
(ii) cache initialization clears a stored identity whose backing file is
missing, unreadable or empty; (iii) an identity mismatch (with a healthy
cache file) forces a fetch but leaves the stored identity unchanged when
that fetch fails — it is not cleared at cache-miss time. -/
def CachePolicy (e : RunEnv) : Prop :=
  ((e.board.isEmpty || e.imageTypeRaw.isEmpty || e.distro.isEmpty) = false →
    (countFetch (dfuRun e) = 0 ↔
      (e.cachingEnabled = true ∧
       (initializeCache e).1 = some (e.hashFn (imageFilename e)) ∧
       e.cacheExists = true ∧ e.cacheReadable = true ∧ e.cacheSize ≠ 0))) ∧
  (e.storedHash0 ≠ none →
    (e.cacheExists = false ∨ e.cacheReadable = false ∨ e.cacheSize = 0) →
    (initializeCache e).1 = none) ∧
  ((e.board.isEmpty || e.imageTypeRaw.isEmpty || e.distro.isEmpty) = false →
    e.cacheExists = true → e.cacheReadable = true → e.cacheSize ≠ 0 →
    useCached e (initializeCache e).1 = false →
    (downloadImage e.fetch (compressedPath e)).1 = false →
    storedHashAfter (dfuRun e) e.storedHash0 = e.storedHash0)

/-- Claim C5 amended: the skip-fetch condition is exactly the spec's
conjunction, and the stored identity self-heals at initialization for bad
backing files, but a plain identity mismatch does not clear it — the
identity survives a failed fetch unchanged. -/
theorem run_cache_policy (e : RunEnv) : CachePolicy e := by
  refine ⟨?_, initializeCache_clears e, ?_⟩
  · intro hdo
    rw [dfuRun_countFetch e hdo]
    constructor
    · intro h
      have huse : useCached e (initializeCache e).1 = true := by
        by_cases hu : useCached e (initializeCache e).1 = true
        · exact hu
        · rw [if_neg hu] at h; omega
      exact (useCached_iff_spec e _).mp huse
    · intro h
      rw [if_pos ((useCached_iff_spec e _).mpr h)]
  · intro hdo h1 h2 h3 huse hdf
    have hinit := initializeCache_good e h1 h2 h3
    have hstep : acquireStep e (initializeCache e).1 =
        (AcqOut.failed,
          [REv.prog 5] ++
            (if (e.cachingEnabled && e.settingsWritable && e.cacheExists) = true then
              [REv.removeF (cachePath e)] else []) ++
            (downloadImage e.fetch (compressedPath e)).2 ++ [REv.err]) := by
      simp [acquireStep, hdo, huse, hdf, cachefileIsOpen]
    have hrun : dfuRun e = (initializeCache e).2 ++ (acquireStep e (initializeCache e).1).2 := by
      simp [dfuRun, hstep]
    rw [hrun, hstep]
    apply storedHashAfter_neutral
    rw [show (initializeCache e).2 = ([] : List REv) from by rw [hinit]]
    have hdl := (downloadImage_fetch_hash e.fetch (compressedPath e)).2
    simp [List.countP_append, List.countP_cons, countP_ite_single, isHashEv, hdl,
      -List.countP_eq_zero]

/-- Concrete environment for C5 and C6: caching enabled, stored identity 999
left by a previous image, requested image hashing to 7, healthy cache file
of 5000 bytes, fetch writing 1000 bytes and then failing. -/
def c5Env : RunEnv :=
  ⟨"b", "t", "d", "", "/tf", "/cd", "/td", true, some 999, fun _ => 7, true, true, 5000,
   true, ⟨true, [], [1000], true, 0⟩, ⟨true, true, true, [], XzEnd.finish 0 true⟩,
   fun _ => true, fun _ => ⟨true, true, true⟩, ⟨true, true, true⟩⟩

/-- Claim C5 counterexample: an identity mismatch produces a cache miss (the
fetch runs) but does not clear the stored identity — after the failed fetch
the settings still hold the old identity 999, where the claim requires it to
have been cleared. -/
theorem cache_miss_keeps_identity :
    countFetch (dfuRun c5Env) = 1 ∧
    storedHashAfter (dfuRun c5Env) c5Env.storedHash0 = some 999 := by decide

theorem run_cache_policy_witness : CachePolicy c5Env :=
  run_cache_policy c5Env

/-! ## Claim C6 -/

def c6Env : RunEnv :=
  ⟨"b", "t", "d", "", "/tf", "/cd", "/td", true, some 999, fun _ => 7, true, true, 5000,
   true, ⟨true, [], [1000], true, 0⟩, ⟨true, true, true, [], XzEnd.finish 0 true⟩,
   fun _ => true, fun _ => ⟨true, true, true⟩, ⟨true, true, true⟩⟩

/-- Claim C6, evaluated at the failing input: the campaign aborts (error,
no success), yet the cache slot still holds the 1000 partially fetched
bytes — the removal at lines 613-614 of dfuthread.cpp is guarded by
`_cachefile.isOpen()`, which is always false because `setCacheFile` is never
called — and the stored identity still names the previous image (999,
different from the requested image's identity), so a later campaign for the
old image would accept the partial file as a valid cache entry. -/
theorem failed_fetch_keeps_partial_cache :
    1 ≤ countErr (dfuRun c6Env) ∧ countSucc (dfuRun c6Env) = 0 ∧
    fileAfter (dfuRun c6Env) (cachePath c6Env) (some 5000) = some 1000 ∧
    storedHashAfter (dfuRun c6Env) c6Env.storedHash0 = some 999 ∧
    some 999 ≠ some (c6Env.hashFn (imageFilename c6Env)) := by decide

/-! ## Monotone bounded progress segments -/

/-- A percentage list that is non-decreasing with all values in `[lo, hi]`. -/
def MonoLH (l : List Int) (lo hi : Int) : Prop :=
  List.Chain' (· ≤ ·) l ∧ ∀ x ∈ l, lo ≤ x ∧ x ≤ hi

theorem monoLH_nil (lo hi : Int) : MonoLH [] lo hi := ⟨List.chain'_nil, by simp⟩

theorem monoLH_single (a lo hi : Int) (h1 : lo ≤ a) (h2 : a ≤ hi) : MonoLH [a] lo hi := by
  refine ⟨List.chain'_singleton a, ?_⟩
  intro x hx
  simp at hx
  subst hx
  exact ⟨h1, h2⟩

theorem monoLH_mono {l : List Int} {lo hi lo' hi' : Int} (h : MonoLH l lo hi)
    (h1 : lo' ≤ lo) (h2 : hi ≤ hi') : MonoLH l lo' hi' := by
  refine ⟨h.1, fun x hx => ?_⟩
  have := h.2 x hx
  omega

theorem monoLH_append {l1 l2 : List Int} {lo m hi : Int}
    (h1 : MonoLH l1 lo m) (h2 : MonoLH l2 m hi) (hlm : lo ≤ m) (hmh : m ≤ hi) :
    MonoLH (l1 ++ l2) lo hi := by
  constructor
  · rw [List.chain'_append]
    refine ⟨h1.1, h2.1, ?_⟩
    intro x hx y hy
    have hx' : x ∈ l1 := by
      obtain ⟨hne, hxe⟩ := List.mem_getLast?_eq_getLast hx
      subst hxe
      exact List.getLast_mem hne
    have hy' : y ∈ l2 := by
      cases l2 with
      | nil => simp at hy
      | cons a r =>
        simp at hy
        subst hy
        exact List.mem_cons_self a r
    have hb1 := h1.2 x hx'
    have hb2 := h2.2 y hy'
    omega
  · intro x hx
    rcases List.mem_append.mp hx with h | h
    · have := h1.2 x h; omega
    · have := h2.2 x h; omega

theorem pseq_append (a b : List REv) : pseq (a ++ b) = pseq a ++ pseq b := by
  simp [pseq, List.filterMap_append]

theorem pseq_map_prog (l : List Int) : pseq (l.map REv.prog) = l := by
  induction l with
  | nil => rfl
  | cons a r ih =>
    rw [List.map_cons]
    rw [show pseq (REv.prog a :: List.map REv.prog r) = a :: pseq (List.map REv.prog r)
      from rfl, ih]

theorem pseq_map_writeF (p : String) (l : List Nat) :
    pseq (l.map (fun n => REv.writeF p n)) = [] := by
  induction l with
  | nil => rfl
  | cons a r ih =>
    rw [List.map_cons]
    rw [show pseq (REv.writeF p a :: List.map (fun n => REv.writeF p n) r) =
      pseq (List.map (fun n => REv.writeF p n) r) from rfl, ih]

theorem filterMap_comp_prog (l : List Int) :
    List.filterMap (progOf ∘ REv.prog) l = l := by
  induction l with
  | nil => rfl
  | cons a r ih =>
    rw [show List.filterMap (progOf ∘ REv.prog) (a :: r) =
      a :: List.filterMap (progOf ∘ REv.prog) r from rfl, ih]

theorem filterMap_comp_writeF (p : String) (l : List Nat) :
    List.filterMap (progOf ∘ fun n => REv.writeF p n) l = [] := by
  induction l with
  | nil => rfl
  | cons a r ih =>
    rw [show List.filterMap (progOf ∘ fun n => REv.writeF p n) (a :: r) =
      List.filterMap (progOf ∘ fun n => REv.writeF p n) r from rfl, ih]

theorem pseq_ite_single (c : Prop) [Decidable c] (x : REv) (h : progOf x = none) :
    pseq (if c then [x] else []) = [] := by
  split_ifs <;> simp [pseq, h]

theorem downloadImage_pseq (f : FetchEnv) (p : String) :
    pseq (downloadImage f p).2 = (if f.outOpenOk = false then [] else fetchPcts f) := by
  unfold downloadImage
  split_ifs with h1 h2 <;>
    simp [pseq_append, pseq, progOf, filterMap_comp_prog, filterMap_comp_writeF]

theorem xzProgress_bounds (tw : Nat) : 40 ≤ xzProgress tw ∧ xzProgress tw ≤ 50 := by
  unfold xzProgress
  have h := Nat.min_le_left 10 (tw * 10 / 4294967296)
  omega

theorem xzFlushes_mono (o : String) :
    ∀ l : List Nat, ∀ tw : Nat, ∀ lp : Int, lp ≤ 50 →
      MonoLH (pseq (xzFlushes o l tw lp).1) lp (xzFlushes o l tw lp).2.2 ∧
      lp ≤ (xzFlushes o l tw lp).2.2 ∧ (xzFlushes o l tw lp).2.2 ≤ 50 := by
  intro l
  induction l with
  | nil =>
    intro tw lp hlp
    exact ⟨monoLH_nil lp lp, le_refl lp, hlp⟩
  | cons n rest ih =>
    intro tw lp hlp
    have hb := xzProgress_bounds (tw + n)
    simp only [xzFlushes]
    by_cases h : lp < xzProgress (tw + n)
    · have ihr := ih (tw + n) (xzProgress (tw + n)) hb.2
      simp only [h, if_true]
      rw [pseq_append, pseq_append]
      have hw : pseq [REv.writeF o n] = [] := rfl
      have hp : pseq [REv.prog (xzProgress (tw + n))] = [xzProgress (tw + n)] := rfl
      rw [hw, hp]
      simp only [List.nil_append]
      refine ⟨?_, ?_, ihr.2.2⟩
      · refine monoLH_append (monoLH_single _ lp (xzProgress (tw + n)) (le_of_lt h) le_rfl)
          ihr.1 (le_of_lt h) ihr.2.1
      · omega
    · have ihr := ih (tw + n) lp hlp
      simp only [h, if_false]
      rw [pseq_append, pseq_append]
      have hw : pseq [REv.writeF o n] = [] := rfl
      have hpn : pseq ([] : List REv) = [] := rfl
      rw [hw, hpn]
      simp only [List.nil_append]
      exact ihr

theorem extractXzFile_pseq_mono (x : XzEnv) (o : String) :
    MonoLH (pseq (extractXzFile x o).2) 40 50 := by
  have hm := xzFlushes_mono o x.flushes 0 40 (by omega)
  have hdrop : pseq ([REv.truncF o] ++ (xzFlushes o x.flushes 0 40).1 ++
      [REv.err, REv.removeF o]) = pseq (xzFlushes o x.flushes 0 40).1 := by
    rw [pseq_append, pseq_append]
    simp [pseq, progOf]
  unfold extractXzFile
  split_ifs with h1 h2 h3
  · exact monoLH_nil 40 50
  · exact monoLH_nil 40 50
  · have hp : pseq [REv.truncF o, REv.err] = [] := rfl
    rw [hp]
    exact monoLH_nil 40 50
  · cases hend : x.ending with
    | readErr =>
      rw [hdrop]
      exact monoLH_mono hm.1 (by omega) hm.2.2
    | writeErr n =>
      rw [hdrop]
      exact monoLH_mono hm.1 (by omega) hm.2.2
    | decodeErr k =>
      rw [hdrop]
      exact monoLH_mono hm.1 (by omega) hm.2.2
    | finish n ok =>
      cases hok : ok with
      | false =>
        dsimp only
        rw [if_pos rfl, hdrop]
        exact monoLH_mono hm.1 (by omega) hm.2.2
      | true =>
        dsimp only
        rw [if_neg (by simp)]
        rw [pseq_append, pseq_append, pseq_append]
        have hw : pseq [REv.writeF o n] = [] := rfl
        have ht : pseq [REv.truncF o] = [] := rfl
        rw [hw, ht]
        simp only [List.nil_append, List.append_nil]
        have hnpb := xzProgress_bounds ((xzFlushes o x.flushes 0 40).2.1 + n)
        have htail : MonoLH
            (pseq (if (xzFlushes o x.flushes 0 40).2.2 <
                xzProgress ((xzFlushes o x.flushes 0 40).2.1 + n) then
              [REv.prog (xzProgress ((xzFlushes o x.flushes 0 40).2.1 + n))] else []))
            (xzFlushes o x.flushes 0 40).2.2 50 := by
          split_ifs with hc
          · rw [show pseq [REv.prog (xzProgress ((xzFlushes o x.flushes 0 40).2.1 + n))] =
              [xzProgress ((xzFlushes o x.flushes 0 40).2.1 + n)] from rfl]
            exact monoLH_single _ _ 50 (le_of_lt hc) hnpb.2
          · exact monoLH_nil _ 50
        exact monoLH_append (monoLH_mono hm.1 (by omega) le_rfl) htail hm.2.1 hm.2.2

theorem extractPhase_pseq_mono (e : RunEnv) (pre : List REv) (lo : Int)
    (hpre : MonoLH (pseq pre) lo 40) (hlo : lo ≤ 40) :
    MonoLH (pseq (extractPhase e pre).2) lo 50 := by
  have hx := extractXzFile_pseq_mono e.xz (stagingPath e)
  have h40 : pseq [REv.prog 40] = [(40 : Int)] := rfl
  have h50 : pseq [REv.prog 50] = [(50 : Int)] := rfl
  have herr : pseq [REv.err] = [] := rfl
  have hrm : ∀ p, pseq [REv.removeF p] = [] := fun _ => rfl
  have hleft : MonoLH (pseq pre ++ [(40 : Int)] ++
      pseq (extractXzFile e.xz (stagingPath e)).2) lo 50 :=
    monoLH_append (monoLH_append hpre (monoLH_single 40 40 40 le_rfl le_rfl) hlo le_rfl)
      hx hlo (by omega)
  simp only [extractPhase]
  split_ifs with h1 h2
  · simp only [pseq_append, h40, herr, hrm, List.append_nil]
    exact hleft
  · simp only [pseq_append, h40, herr, List.append_nil]
    exact hleft
  · simp only [pseq_append, h40, h50, hrm, List.append_nil]
    exact monoLH_append hleft (monoLH_single 50 50 50 le_rfl le_rfl) (by omega) le_rfl
  · simp only [pseq_append, h40, h50, List.append_nil]
    exact monoLH_append hleft (monoLH_single 50 50 50 le_rfl le_rfl) (by omega) le_rfl

theorem acquireStep_pseq_mono (e : RunEnv) (sh : Option Nat)
    (hf : MonoLH (fetchPcts e.fetch) 5 40) :
    MonoLH (pseq (acquireStep e sh).2) 5 50 := by
  have hdlm : MonoLH (pseq (downloadImage e.fetch (compressedPath e)).2) 5 40 := by
    rw [downloadImage_pseq]
    split_ifs
    · exact monoLH_nil 5 40
    · exact hf
  have h5 : pseq [REv.prog 5] = [(5 : Int)] := rfl
  have herr : pseq [REv.err] = [] := rfl
  by_cases h1 : (e.board.isEmpty || e.imageTypeRaw.isEmpty || e.distro.isEmpty) = true
  · have : acquireStep e sh = (AcqOut.noImage, []) := by simp [acquireStep, h1]
    rw [this]
    exact monoLH_nil 5 50
  · by_cases h2 : useCached e sh = true
    · have hstep : acquireStep e sh = extractPhase e [REv.prog 5, REv.prog 40] := by
        simp [acquireStep, h1, h2]
      rw [hstep]
      refine extractPhase_pseq_mono e _ 5 ?_ (by omega)
      have : pseq [REv.prog 5, REv.prog 40] = [(5 : Int)] ++ [(40 : Int)] := rfl
      rw [this]
      exact monoLH_append (monoLH_single 5 5 5 le_rfl le_rfl)
        (monoLH_single 40 5 40 (by omega) le_rfl) le_rfl (by omega)
    · by_cases h3 : (downloadImage e.fetch (compressedPath e)).1 = false
      · have hstep : acquireStep e sh =
            (AcqOut.failed,
              [REv.prog 5] ++
                (if (e.cachingEnabled && e.settingsWritable && e.cacheExists) = true then
                  [REv.removeF (cachePath e)] else []) ++
                (downloadImage e.fetch (compressedPath e)).2 ++ [REv.err]) := by
          simp [acquireStep, h1, h2, h3, cachefileIsOpen]
        rw [hstep]
        simp only [pseq_append, h5, herr,
          pseq_ite_single _ (REv.removeF (cachePath e)) rfl, List.append_nil]
        refine monoLH_mono ?_ le_rfl (by omega : (40 : Int) ≤ 50)
        exact monoLH_append (monoLH_single 5 5 5 le_rfl le_rfl) hdlm le_rfl (by omega)
      · have hstep : acquireStep e sh = extractPhase e
            ([REv.prog 5] ++
              (if (e.cachingEnabled && e.settingsWritable && e.cacheExists) = true then
                [REv.removeF (cachePath e)] else []) ++
              (downloadImage e.fetch (compressedPath e)).2 ++
              (if e.cachingEnabled = true then
                [REv.setHash (e.hashFn (imageFilename e))] else [])) := by
          simp [acquireStep, h1, h2, h3]
        rw [hstep]
        refine extractPhase_pseq_mono e _ 5 ?_ (by omega)
        simp only [pseq_append, h5,
          pseq_ite_single _ (REv.removeF (cachePath e)) rfl,
          pseq_ite_single _ (REv.setHash (e.hashFn (imageFilename e))) rfl,
          List.append_nil]
        exact monoLH_append (monoLH_single 5 5 5 le_rfl le_rfl) hdlm le_rfl (by omega)

theorem bootLoop_nil (e : RunEnv) (staging : Option String) (i : Nat) (cp : Int) :
    bootLoop e staging i [] cp = (true, []) := rfl

theorem bootLoop_cons_initFail (e : RunEnv) (staging : Option String) (i : Nat)
    (f : String) (rest : List String) (cp : Int) (hI : (e.stages i).initOk = false) :
    bootLoop e staging i (f :: rest) cp =
      (false, [REv.prog cp, REv.sessionNew, REv.sessionInit] ++ [REv.err] ++
        stagingCleanup staging) := by
  simp [bootLoop, hI]

theorem bootLoop_cons_findFail (e : RunEnv) (staging : Option String) (i : Nat)
    (f : String) (rest : List String) (cp : Int)
    (hI : (e.stages i).initOk = true) (hF : (e.stages i).findOk = false) :
    bootLoop e staging i (f :: rest) cp =
      (false, [REv.prog cp, REv.sessionNew, REv.sessionInit] ++
        [REv.sessionFind, REv.err] ++ stagingCleanup staging) := by
  simp [bootLoop, hI, hF]

theorem bootLoop_cons_dlFail (e : RunEnv) (staging : Option String) (i : Nat)
    (f : String) (rest : List String) (cp : Int)
    (hI : (e.stages i).initOk = true) (hF : (e.stages i).findOk = true)
    (hD : (e.stages i).dlOk = false) :
    bootLoop e staging i (f :: rest) cp =
      (false, [REv.prog cp, REv.sessionNew, REv.sessionInit] ++
        [REv.sessionFind, REv.sessionDownload, REv.err] ++ stagingCleanup staging) := by
  simp [bootLoop, hI, hF, hD]

theorem bootLoop_cons_ok (e : RunEnv) (staging : Option String) (i : Nat)
    (f : String) (rest : List String) (cp : Int)
    (hI : (e.stages i).initOk = true) (hF : (e.stages i).findOk = true)
    (hD : (e.stages i).dlOk = true) :
    bootLoop e staging i (f :: rest) cp =
      ((bootLoop e staging (i + 1) rest (cp + 6)).1,
        [REv.prog cp, REv.sessionNew, REv.sessionInit] ++
          [REv.sessionFind, REv.sessionDownload, REv.prog (cp + 6)] ++
          (if rest.isEmpty = true then ([] : List REv)
            else [REv.prog (cp + 6), REv.sleepS 5]) ++
          (bootLoop e staging (i + 1) rest (cp + 6)).2) := by
  have h63 : (20 : Int) / 3 = 6 := by decide
  simp [bootLoop, hI, hF, hD, h63]

theorem bootLoop_pseq_mono (e : RunEnv) (staging : Option String) :
    ∀ l : List String, ∀ i : Nat, ∀ cp : Int,
      MonoLH (pseq (bootLoop e staging i l cp).2) cp (cp + 6 * l.length) := by
  have hsc : pseq (stagingCleanup staging) = [] := by cases staging <;> rfl
  intro l
  induction l with
  | nil =>
    intro i cp
    exact monoLH_nil cp _
  | cons f rest ih =>
    intro i cp
    have ihr := ih (i + 1) (cp + 6)
    have hlen : (0 : Int) ≤ 6 * ((rest.length : Int) + 1) := by positivity
    have hcp : pseq [REv.prog cp, REv.sessionNew, REv.sessionInit] = [cp] := rfl
    have hfail : ∀ mid : List REv, pseq mid = [] →
        MonoLH (pseq ([REv.prog cp, REv.sessionNew, REv.sessionInit] ++ mid ++
          stagingCleanup staging)) cp (cp + 6 * ((f :: rest).length : Int)) := by
      intro mid hmid
      rw [pseq_append, pseq_append, hcp, hmid, hsc, List.append_nil, List.append_nil]
      refine monoLH_single cp cp _ le_rfl ?_
      simp only [List.length_cons]
      push_cast
      omega
    cases hI : (e.stages i).initOk with
    | false =>
      rw [bootLoop_cons_initFail e staging i f rest cp hI]
      exact hfail [REv.err] rfl
    | true =>
      cases hF : (e.stages i).findOk with
      | false =>
        rw [bootLoop_cons_findFail e staging i f rest cp hI hF]
        exact hfail [REv.sessionFind, REv.err] rfl
      | true =>
        cases hD : (e.stages i).dlOk with
        | false =>
          rw [bootLoop_cons_dlFail e staging i f rest cp hI hF hD]
          exact hfail [REv.sessionFind, REv.sessionDownload, REv.err] rfl
        | true =>
          rw [bootLoop_cons_ok e staging i f rest cp hI hF hD]
          have hsd : pseq [REv.sessionFind, REv.sessionDownload, REv.prog (cp + 6)] =
              [cp + 6] := rfl
          rw [pseq_append, pseq_append, pseq_append, hcp, hsd]
          have hinter : MonoLH (pseq (if rest.isEmpty = true then ([] : List REv)
              else [REv.prog (cp + 6), REv.sleepS 5])) (cp + 6) (cp + 6) := by
            split_ifs
            · exact monoLH_nil _ _
            · rw [show pseq [REv.prog (cp + 6), REv.sleepS 5] = [cp + 6] from rfl]
              exact monoLH_single _ _ _ le_rfl le_rfl
          have hrec : MonoLH (pseq (bootLoop e staging (i + 1) rest (cp + 6)).2)
              (cp + 6) (cp + 6 + 6 * (rest.length : Int)) := ihr
          have hone : MonoLH [cp] cp (cp + 6) :=
            monoLH_single cp cp (cp + 6) le_rfl (by omega)
          have htwo : MonoLH [cp + 6] (cp + 6) (cp + 6) :=
            monoLH_single _ _ _ le_rfl le_rfl
          have hcomb : MonoLH ([cp] ++ [cp + 6] ++
              pseq (if rest.isEmpty = true then ([] : List REv)
                else [REv.prog (cp + 6), REv.sleepS 5]) ++
              pseq (bootLoop e staging (i + 1) rest (cp + 6)).2)
              cp (cp + 6 + 6 * (rest.length : Int)) :=
            monoLH_append
              (monoLH_append (monoLH_append hone htwo (by omega) le_rfl) hinter
                (by omega) le_rfl)
              hrec (by omega) (by omega)
          refine monoLH_mono hcomb le_rfl (le_of_eq ?_)
          simp only [List.length_cons]
          push_cast
          ring

theorem sendImageToRawemmc_pseq_mono (st : StageEnv) :
    MonoLH (pseq (sendImageToRawemmc st).2) 80 80 := by
  unfold sendImageToRawemmc
  split_ifs <;>
    first
    | exact monoLH_nil 80 80
    | (rw [show pseq [REv.sessionNew, REv.sessionInit, REv.err] = [] from rfl]
       exact monoLH_nil 80 80)
    | (rw [show pseq [REv.sessionNew, REv.sessionInit, REv.sessionFind, REv.err] = []
         from rfl]
       exact monoLH_nil 80 80)
    | (rw [show pseq [REv.sessionNew, REv.sessionInit, REv.sessionFind, REv.prog 80,
           REv.sessionDownload, REv.err] = [(80 : Int)] from rfl]
       exact monoLH_single 80 80 80 le_rfl le_rfl)
    | (rw [show pseq [REv.sessionNew, REv.sessionInit, REv.sessionFind, REv.prog 80,
           REv.sessionDownload] = [(80 : Int)] from rfl]
       exact monoLH_single 80 80 80 le_rfl le_rfl)

theorem mainAfter_missing (e : RunEnv) (st : Option String) (g : String)
    (hg : bootFiles.find? (fun f => !(e.bootExists (e.testFilesPath ++ "/" ++ f))) = some g) :
    mainAfter e st = [REv.prog 52] ++ [REv.err] ++ stagingCleanup st := by
  simp [mainAfter, hg]

theorem mainAfter_bootFail (e : RunEnv) (st : Option String)
    (hg : bootFiles.find? (fun f => !(e.bootExists (e.testFilesPath ++ "/" ++ f))) = none)
    (hr : (bootLoop e st 0 bootFiles 55).1 = false) :
    mainAfter e st = [REv.prog 52] ++ [REv.prog 55] ++ (bootLoop e st 0 bootFiles 55).2 := by
  simp [mainAfter, hg, hr]

theorem mainAfter_ok_noImage (e : RunEnv)
    (hg : bootFiles.find? (fun f => !(e.bootExists (e.testFilesPath ++ "/" ++ f))) = none)
    (hr : (bootLoop e none 0 bootFiles 55).1 = true) :
    mainAfter e none = [REv.prog 52] ++ [REv.prog 55] ++ (bootLoop e none 0 bootFiles 55).2 ++
      [REv.prog 75] ++ [REv.prog 100, REv.succ] := by
  simp [mainAfter, hg, hr]

theorem mainAfter_ok_image (e : RunEnv) (p : String)
    (hg : bootFiles.find? (fun f => !(e.bootExists (e.testFilesPath ++ "/" ++ f))) = none)
    (hr : (bootLoop e (some p) 0 bootFiles 55).1 = true) :
    mainAfter e (some p) = [REv.prog 52] ++ [REv.prog 55] ++
      (bootLoop e (some p) 0 bootFiles 55).2 ++ [REv.prog 75] ++
      [REv.prog 78, REv.sleepS 10, REv.prog 80] ++ (sendImageToRawemmc e.raw).2 ++
      (if (sendImageToRawemmc e.raw).1 = false then [REv.err, REv.removeF p]
        else [REv.removeF p, REv.prog 100, REv.succ]) := by
  simp [mainAfter, hg, hr]

theorem mainAfter_pseq_mono (e : RunEnv) (st : Option String) :
    MonoLH (pseq (mainAfter e st)) 52 100 := by
  have hb : MonoLH (pseq (bootLoop e st 0 bootFiles 55).2) 55 73 := by
    have h := bootLoop_pseq_mono e st bootFiles 0 55
    refine monoLH_mono h le_rfl (le_of_eq ?_)
    decide
  have hsc : pseq (stagingCleanup st) = [] := by cases st <;> rfl
  have h52 : pseq [REv.prog 52] = [(52 : Int)] := rfl
  have h55 : pseq [REv.prog 55] = [(55 : Int)] := rfl
  have h75 : pseq [REv.prog 75] = [(75 : Int)] := rfl
  have hfront : MonoLH ([(52 : Int)] ++ ([(55 : Int)] ++
      pseq (bootLoop e st 0 bootFiles 55).2)) 52 73 :=
    monoLH_append (monoLH_single 52 52 55 le_rfl (by omega))
      (monoLH_append (monoLH_single 55 55 55 le_rfl le_rfl) hb (by omega) (by omega))
      (by omega) (by omega)
  cases hf : bootFiles.find? (fun f => !(e.bootExists (e.testFilesPath ++ "/" ++ f))) with
  | some g =>
    rw [mainAfter_missing e st g hf, pseq_append, pseq_append, h52, hsc]
    rw [show pseq [REv.err] = [] from rfl]
    simp only [List.append_nil]
    exact monoLH_single 52 52 100 le_rfl (by omega)
  | none =>
    cases hr : (bootLoop e st 0 bootFiles 55).1 with
    | false =>
      rw [mainAfter_bootFail e st hf hr, pseq_append, pseq_append, h52, h55]
      refine monoLH_mono ?_ le_rfl (by omega : (73 : Int) ≤ 100)
      rw [List.append_assoc]
      exact hfront
    | true =>
      cases st with
      | none =>
        rw [mainAfter_ok_noImage e hf hr]
        rw [pseq_append, pseq_append, pseq_append, pseq_append, h52, h55, h75]
        rw [show pseq [REv.prog 100, REv.succ] = [(100 : Int)] from rfl]
        refine monoLH_append (monoLH_append ?_ (monoLH_single 75 73 75 (by omega) le_rfl)
          (by omega) (by omega)) (monoLH_single 100 75 100 (by omega) le_rfl)
          (by omega) (by omega)
        rw [List.append_assoc]
        exact hfront
      | some p =>
        have hraw := sendImageToRawemmc_pseq_mono e.raw
        have htail : MonoLH (pseq (if (sendImageToRawemmc e.raw).1 = false then
            [REv.err, REv.removeF p]
            else [REv.removeF p, REv.prog 100, REv.succ])) 80 100 := by
          split_ifs
          · rw [show pseq [REv.err, REv.removeF p] = [] from rfl]
            exact monoLH_nil 80 100
          · rw [show pseq [REv.removeF p, REv.prog 100, REv.succ] = [(100 : Int)] from rfl]
            exact monoLH_single 100 80 100 (by omega) le_rfl
        rw [mainAfter_ok_image e p hf hr]
        rw [pseq_append, pseq_append, pseq_append, pseq_append, pseq_append, pseq_append,
          h52, h55, h75]
        rw [show pseq [REv.prog 78, REv.sleepS 10, REv.prog 80] =
          [(78 : Int)] ++ [(80 : Int)] from rfl]
        have hfront2 : MonoLH (([(52 : Int)] ++ ([(55 : Int)] ++
            pseq (bootLoop e (some p) 0 bootFiles 55).2))) 52 73 := hfront
        refine monoLH_append (monoLH_append (monoLH_append (monoLH_append ?_
          (monoLH_single 75 73 75 (by omega) le_rfl) (by omega) (by omega))
          (monoLH_append (monoLH_single 78 75 78 (by omega) le_rfl)
            (monoLH_single 80 78 80 (by omega) le_rfl) (by omega) (by omega))
          (by omega) (by omega))
          (monoLH_mono hraw (by omega) (by omega)) (by omega) (by omega))
          htail (by omega) (by omega)
        rw [List.append_assoc]
        exact hfront2

/-- The progress percentages of the initialization step: none. -/
theorem initializeCache_pseq (e : RunEnv) : pseq (initializeCache e).2 = [] := by
  unfold initializeCache
  cases e.storedHash0 with
  | none => rfl
  | some h => split_ifs <;> rfl

/-- Monotonicity of the whole campaign's progress stream, given that the
network layer's progress callbacks yield a non-decreasing percentage list
within the 5-40 download band. -/
theorem dfuRun_pseq_mono (e : RunEnv) (hf : MonoLH (fetchPcts e.fetch) 5 40) :
    MonoLH (pseq (dfuRun e)) 5 100 := by
  have hic := initializeCache_pseq e
  have ha := acquireStep_pseq_mono e (initializeCache e).1 hf
  cases hout : (acquireStep e (initializeCache e).1).1 with
  | failed =>
    have hrun : dfuRun e =
        (initializeCache e).2 ++ (acquireStep e (initializeCache e).1).2 := by
      simp [dfuRun, hout]
    rw [hrun, pseq_append, hic, List.nil_append]
    exact monoLH_mono ha le_rfl (by omega)
  | noImage =>
    have hrun : dfuRun e = (initializeCache e).2 ++
        (acquireStep e (initializeCache e).1).2 ++ mainAfter e none := by
      simp [dfuRun, hout]
    rw [hrun, pseq_append, pseq_append, hic, List.nil_append]
    exact monoLH_append (monoLH_mono ha le_rfl (by omega : (50 : Int) ≤ 52))
      (monoLH_mono (mainAfter_pseq_mono e none) le_rfl le_rfl) (by omega) (by omega)
  | acquired p =>
    have hrun : dfuRun e = (initializeCache e).2 ++
        (acquireStep e (initializeCache e).1).2 ++ mainAfter e (some p) := by
      simp [dfuRun, hout]
    rw [hrun, pseq_append, pseq_append, hic, List.nil_append]
    exact monoLH_append (monoLH_mono ha le_rfl (by omega : (50 : Int) ≤ 52))
      (monoLH_mono (mainAfter_pseq_mono e (some p)) le_rfl le_rfl) (by omega) (by omega)

/-! ## Terminal-event discipline -/

/-- A trace segment containing neither an `error` nor a `success` signal. -/
def Clean (l : List REv) : Prop := countErr l = 0 ∧ countSucc l = 0

/-- A trace segment emitting no progress and no success (a second `error`
and file-system effects are allowed). -/
def NoPS (l : List REv) : Prop := pseq l = [] ∧ countSucc l = 0

/-- A failing trace: a clean prefix, a first `error`, then a tail with no
progress, no success, and at most one further `error`. -/
def FailTail (l : List REv) : Prop :=
  ∃ pre post, l = pre ++ REv.err :: post ∧ Clean pre ∧ NoPS post ∧ countErr post ≤ 1

/-- A successful trace: a clean prefix followed by the single `success`. -/
def SuccEnd (l : List REv) : Prop := ∃ pre, l = pre ++ [REv.succ] ∧ Clean pre

/-- Terminal-event discipline of a campaign trace: either no error, exactly
one success and it is the last event; or no success, one or two errors, and
nothing after the first error except the optional second error and
file-system cleanup (in particular no progress and no success). -/
def TermSpec (l : List REv) : Prop :=
  (countErr l = 0 ∧ countSucc l = 1 ∧ l.getLast? = some REv.succ) ∨
  (countSucc l = 0 ∧ (countErr l = 1 ∨ countErr l = 2) ∧
    pseq (tailAfterFirstErr l) = [] ∧ countSucc (tailAfterFirstErr l) = 0)

theorem clean_append {a b : List REv} (ha : Clean a) (hb : Clean b) : Clean (a ++ b) := by
  obtain ⟨h1, h2⟩ := ha
  obtain ⟨h3, h4⟩ := hb
  constructor <;>
    simp only [countErr, countSucc, List.countP_append] at h1 h2 h3 h4 ⊢ <;> omega

theorem tailAfterFirstErr_append_clean {pre : List REv} (l : List REv)
    (h : countErr pre = 0) : tailAfterFirstErr (pre ++ l) = tailAfterFirstErr l := by
  induction pre with
  | nil => rfl
  | cons x r ih =>
    rw [countErr, List.countP_cons] at h
    have hx : isErrB x = false := by
      cases hq : isErrB x
      · rfl
      · simp [hq] at h
    have hr : countErr r = 0 := by rw [countErr]; omega
    rw [List.cons_append]
    rw [show tailAfterFirstErr (x :: (r ++ l)) = tailAfterFirstErr (r ++ l) from by
      simp [tailAfterFirstErr, List.dropWhile_cons, hx]]
    exact ih hr

theorem succEnd_termSpec {l : List REv} (h : SuccEnd l) : TermSpec l := by
  obtain ⟨pre, hl, hpre⟩ := h
  subst hl
  left
  refine ⟨?_, ?_, List.getLast?_concat pre⟩
  · have h1 := hpre.1
    rw [countErr] at h1
    rw [countErr, List.countP_append,
      show List.countP isErrB [REv.succ] = 0 from rfl]
    omega
  · have h1 := hpre.2
    rw [countSucc] at h1
    rw [countSucc, List.countP_append,
      show List.countP isSuccB [REv.succ] = 1 from rfl]
    omega

theorem failTail_termSpec {l : List REv} (h : FailTail l) : TermSpec l := by
  obtain ⟨pre, post, hl, hpre, hpost, herr⟩ := h
  subst hl
  right
  have htail : tailAfterFirstErr (pre ++ REv.err :: post) = post := by
    rw [tailAfterFirstErr_append_clean _ hpre.1]
    simp [tailAfterFirstErr, List.dropWhile_cons, isErrB]
  have hcons1 : List.countP isSuccB (REv.err :: post) = List.countP isSuccB post := by
    rw [List.countP_cons]
    rw [show (isSuccB REv.err : Bool) = false from rfl]
    simp
  have hcons2 : List.countP isErrB (REv.err :: post) = List.countP isErrB post + 1 := by
    rw [List.countP_cons]
    rw [show (isErrB REv.err : Bool) = true from rfl]
    simp
  refine ⟨?_, ?_, ?_, ?_⟩
  · have h1 := hpre.2
    have h2 := hpost.2
    rw [countSucc] at h1 h2
    rw [countSucc, List.countP_append, hcons1]
    omega
  · have h1 := hpre.1
    rw [countErr] at h1 herr ⊢
    rw [List.countP_append, hcons2]
    omega
  · rw [htail]; exact hpost.1
  · rw [htail]; exact hpost.2

theorem failTail_clean_prepend {a l : List REv} (ha : Clean a) (h : FailTail l) :
    FailTail (a ++ l) := by
  obtain ⟨pre, post, hl, hpre, hpost, herr⟩ := h
  exact ⟨a ++ pre, post, by rw [hl, List.append_assoc], clean_append ha hpre, hpost, herr⟩

theorem succEnd_clean_prepend {a l : List REv} (ha : Clean a) (h : SuccEnd l) :
    SuccEnd (a ++ l) := by
  obtain ⟨pre, hl, hpre⟩ := h
  exact ⟨a ++ pre, by rw [hl, List.append_assoc], clean_append ha hpre⟩

/-! ## Shapes of the trace segments -/

theorem initializeCache_clean (e : RunEnv) : Clean (initializeCache e).2 := by
  have h := initializeCache_census e
  exact ⟨h.1, h.2.1⟩

theorem downloadImage_ok_clean (f : FetchEnv) (p : String)
    (h : (downloadImage f p).1 = true) : Clean (downloadImage f p).2 := by
  have hc := downloadImage_census f p
  exact ⟨hc.2.2.1 h, hc.1⟩

theorem downloadImage_fail_shape (f : FetchEnv) (p : String)
    (h : (downloadImage f p).1 = false) :
    ∃ pre post, (downloadImage f p).2 = pre ++ post ∧ Clean pre ∧
      (post = [] ∨ post = [REv.err]) := by
  have hce := countP_map_prog isErrB (fun _ => rfl) (fetchPcts f)
  have hcs := countP_map_prog isSuccB (fun _ => rfl) (fetchPcts f)
  have hwe := countP_map_writeF isErrB p (fun _ => rfl) f.chunkSizes
  have hws := countP_map_writeF isSuccB p (fun _ => rfl) f.chunkSizes
  by_cases h1 : f.outOpenOk = false
  · refine ⟨[REv.netFetch], [], by simp [downloadImage, h1], ⟨rfl, rfl⟩, Or.inl rfl⟩
  · by_cases h2 : f.netError = true
    · refine ⟨[REv.netFetch, REv.truncF p] ++ (fetchPcts f).map REv.prog ++
        f.chunkSizes.map (fun n => REv.writeF p n), [REv.err], ?_, ?_, Or.inr rfl⟩
      · simp [downloadImage, h1, h2]
      · constructor
        · rw [countErr, List.countP_append, List.countP_append, hce, hwe]
          rfl
        · rw [countSucc, List.countP_append, List.countP_append, hcs, hws]
          rfl
    · exfalso
      simp [downloadImage, h1, h2] at h

theorem xzFlushes_clean (o : String) (l : List Nat) (tw : Nat) (lp : Int) :
    Clean (xzFlushes o l tw lp).1 := by
  have h := xzFlushes_census o l tw lp
  exact ⟨h.1, h.2.1⟩

theorem extractXzFile_ok_clean (x : XzEnv) (o : String)
    (h : (extractXzFile x o).1 = true) : Clean (extractXzFile x o).2 := by
  have hc := extractXzFile_census x o
  exact ⟨hc.2.2.1 h, hc.1⟩

theorem extractXzFile_fail_shape (x : XzEnv) (o : String)
    (h : (extractXzFile x o).1 = false) :
    ∃ pre post, (extractXzFile x o).2 = pre ++ REv.err :: post ∧ Clean pre ∧
      pseq post = [] ∧ countSucc post = 0 ∧ countErr post = 0 := by
  have hfl := xzFlushes_clean o x.flushes 0 40
  by_cases h1 : x.inOpenOk = false
  · exact ⟨[], [], by simp [extractXzFile, h1], ⟨rfl, rfl⟩, rfl, rfl, rfl⟩
  · by_cases h2 : x.outOpenOk = false
    · exact ⟨[], [], by simp [extractXzFile, h1, h2], ⟨rfl, rfl⟩, rfl, rfl, rfl⟩
    · by_cases h3 : x.initOk = false
      · exact ⟨[REv.truncF o], [], by simp [extractXzFile, h1, h2, h3],
          ⟨rfl, rfl⟩, rfl, rfl, rfl⟩
      · have hpre : Clean ([REv.truncF o] ++ (xzFlushes o x.flushes 0 40).1) :=
          clean_append ⟨rfl, rfl⟩ hfl
        cases hend : x.ending with
        | readErr =>
          exact ⟨[REv.truncF o] ++ (xzFlushes o x.flushes 0 40).1, [REv.removeF o],
            by simp [extractXzFile, h1, h2, h3, hend], hpre, rfl, rfl, rfl⟩
        | writeErr n =>
          exact ⟨[REv.truncF o] ++ (xzFlushes o x.flushes 0 40).1, [REv.removeF o],
            by simp [extractXzFile, h1, h2, h3, hend], hpre, rfl, rfl, rfl⟩
        | decodeErr k =>
          exact ⟨[REv.truncF o] ++ (xzFlushes o x.flushes 0 40).1, [REv.removeF o],
            by simp [extractXzFile, h1, h2, h3, hend], hpre, rfl, rfl, rfl⟩
        | finish n ok =>
          cases hok : ok with
          | false =>
            exact ⟨[REv.truncF o] ++ (xzFlushes o x.flushes 0 40).1, [REv.removeF o],
              by simp [extractXzFile, h1, h2, h3, hend, hok], hpre, rfl, rfl, rfl⟩
          | true =>
            exfalso
            rw [hok] at hend
            simp [extractXzFile, h1, h2, h3, hend] at h

theorem extractPhase_shape (e : RunEnv) (pre0 : List REv) (hc : Clean pre0) :
    ((extractPhase e pre0).1 = AcqOut.failed → FailTail (extractPhase e pre0).2) ∧
    ((extractPhase e pre0).1 ≠ AcqOut.failed → Clean (extractPhase e pre0).2) := by
  constructor
  · intro h
    have hex : (extractXzFile e.xz (stagingPath e)).1 = false := by
      by_contra hex
      simp [extractPhase, hex] at h
    obtain ⟨xpre, xpost, hxeq, hxpre, hxps, hxs, hxe⟩ :=
      extractXzFile_fail_shape e.xz (stagingPath e) hex
    refine ⟨pre0 ++ [REv.prog 40] ++ xpre,
      xpost ++ [REv.err] ++
        (if compressedPath e ≠ cachePath e then [REv.removeF (compressedPath e)] else []),
      ?_, clean_append (clean_append hc ⟨rfl, rfl⟩) hxpre, ⟨?_, ?_⟩, ?_⟩
    · simp [extractPhase, hex, hxeq, List.append_assoc]
    · rw [pseq_append, pseq_append, hxps,
        pseq_ite_single _ (REv.removeF (compressedPath e)) rfl]
      rfl
    · rw [countSucc, List.countP_append, List.countP_append,
        countP_ite_single _ (REv.removeF (compressedPath e)) isSuccB rfl]
      rw [countSucc] at hxs
      rw [hxs]
      rfl
    · rw [countErr, List.countP_append, List.countP_append,
        countP_ite_single _ (REv.removeF (compressedPath e)) isErrB rfl]
      rw [countErr] at hxe
      rw [hxe]
      rfl
  · intro h
    have hcen := extractPhase_census e pre0
    exact ⟨by rw [hcen.2.2 h]; exact hc.1, by rw [hcen.1]; exact hc.2⟩

theorem acquireStep_shape (e : RunEnv) (sh : Option Nat) :
    ((acquireStep e sh).1 = AcqOut.failed → FailTail (acquireStep e sh).2) ∧
    ((acquireStep e sh).1 ≠ AcqOut.failed → Clean (acquireStep e sh).2) := by
  have hcen := acquireStep_census e sh
  refine ⟨?_, fun h => ⟨hcen.2.2 h, hcen.1⟩⟩
  intro h
  by_cases h1 : (e.board.isEmpty || e.imageTypeRaw.isEmpty || e.distro.isEmpty) = true
  · exfalso
    simp [acquireStep, h1] at h
  · by_cases h2 : useCached e sh = true
    · have hstep : acquireStep e sh = extractPhase e [REv.prog 5, REv.prog 40] := by
        simp [acquireStep, h1, h2]
      rw [hstep] at h ⊢
      exact (extractPhase_shape e [REv.prog 5, REv.prog 40] ⟨rfl, rfl⟩).1 h
    · by_cases h3 : (downloadImage e.fetch (compressedPath e)).1 = false
      · have hstep : acquireStep e sh =
            (AcqOut.failed,
              [REv.prog 5] ++
                (if (e.cachingEnabled && e.settingsWritable && e.cacheExists) = true then
                  [REv.removeF (cachePath e)] else []) ++
                (downloadImage e.fetch (compressedPath e)).2 ++ [REv.err]) := by
          simp [acquireStep, h1, h2, h3, cachefileIsOpen]
        rw [hstep]
        obtain ⟨dpre, dpost, hdeq, hdclean, hdc⟩ :=
          downloadImage_fail_shape e.fetch (compressedPath e) h3
        have hcleanPre : Clean ([REv.prog 5] ++
            (if (e.cachingEnabled && e.settingsWritable && e.cacheExists) = true then
              [REv.removeF (cachePath e)] else []) ++ dpre) :=
          clean_append (clean_append ⟨rfl, rfl⟩ (by split_ifs <;> exact ⟨rfl, rfl⟩)) hdclean
        rcases hdc with hdc | hdc <;> subst hdc
        · refine ⟨[REv.prog 5] ++
            (if (e.cachingEnabled && e.settingsWritable && e.cacheExists) = true then
              [REv.removeF (cachePath e)] else []) ++ dpre, [],
            ?_, hcleanPre, ⟨rfl, rfl⟩, by decide⟩
          rw [hdeq]
          simp [List.append_assoc]
        · refine ⟨[REv.prog 5] ++
            (if (e.cachingEnabled && e.settingsWritable && e.cacheExists) = true then
              [REv.removeF (cachePath e)] else []) ++ dpre, [REv.err],
            ?_, hcleanPre, ⟨rfl, rfl⟩, by decide⟩
          rw [hdeq]
          simp [List.append_assoc]
      · have hstep : acquireStep e sh = extractPhase e
            ([REv.prog 5] ++
              (if (e.cachingEnabled && e.settingsWritable && e.cacheExists) = true then
                [REv.removeF (cachePath e)] else []) ++
              (downloadImage e.fetch (compressedPath e)).2 ++
              (if e.cachingEnabled = true then
                [REv.setHash (e.hashFn (imageFilename e))] else [])) := by
          simp [acquireStep, h1, h2, h3]
        have hdok : (downloadImage e.fetch (compressedPath e)).1 = true := by
          cases hb : (downloadImage e.fetch (compressedPath e)).1
          · exact absurd hb h3
          · rfl
        have hclean : Clean ([REv.prog 5] ++
            (if (e.cachingEnabled && e.settingsWritable && e.cacheExists) = true then
              [REv.removeF (cachePath e)] else []) ++
            (downloadImage e.fetch (compressedPath e)).2 ++
            (if e.cachingEnabled = true then
              [REv.setHash (e.hashFn (imageFilename e))] else [])) :=
          clean_append
            (clean_append (clean_append ⟨rfl, rfl⟩ (by split_ifs <;> exact ⟨rfl, rfl⟩))
              (downloadImage_ok_clean _ _ hdok))
            (by split_ifs <;> exact ⟨rfl, rfl⟩)
        rw [hstep] at h ⊢
        exact (extractPhase_shape e _ hclean).1 h

theorem bootLoop_shape (e : RunEnv) (staging : Option String) :
    ∀ l : List String, ∀ i : Nat, ∀ cp : Int,
      ((bootLoop e staging i l cp).1 = true → Clean (bootLoop e staging i l cp).2) ∧
      ((bootLoop e staging i l cp).1 = false → FailTail (bootLoop e staging i l cp).2) := by
  have hscC : Clean (stagingCleanup staging) := by cases staging <;> exact ⟨rfl, rfl⟩
  have hscP : pseq (stagingCleanup staging) = [] := by cases staging <;> rfl
  intro l
  induction l with
  | nil =>
    intro i cp
    refine ⟨fun _ => ⟨rfl, rfl⟩, fun h => ?_⟩
    rw [bootLoop_nil] at h
    simp at h
  | cons f rest ih =>
    intro i cp
    cases hI : (e.stages i).initOk with
    | false =>
      rw [bootLoop_cons_initFail e staging i f rest cp hI]
      refine ⟨fun h => by simp at h, fun _ => ?_⟩
      exact ⟨[REv.prog cp, REv.sessionNew, REv.sessionInit], stagingCleanup staging,
        by simp, ⟨rfl, rfl⟩, ⟨hscP, hscC.2⟩, by rw [hscC.1]; omega⟩
    | true =>
      cases hF : (e.stages i).findOk with
      | false =>
        rw [bootLoop_cons_findFail e staging i f rest cp hI hF]
        refine ⟨fun h => by simp at h, fun _ => ?_⟩
        exact ⟨[REv.prog cp, REv.sessionNew, REv.sessionInit] ++ [REv.sessionFind],
          stagingCleanup staging,
          by simp, ⟨rfl, rfl⟩, ⟨hscP, hscC.2⟩, by rw [hscC.1]; omega⟩
      | true =>
        cases hD : (e.stages i).dlOk with
        | false =>
          rw [bootLoop_cons_dlFail e staging i f rest cp hI hF hD]
          refine ⟨fun h => by simp at h, fun _ => ?_⟩
          exact ⟨[REv.prog cp, REv.sessionNew, REv.sessionInit] ++
            [REv.sessionFind, REv.sessionDownload], stagingCleanup staging,
            by simp, ⟨rfl, rfl⟩, ⟨hscP, hscC.2⟩, by rw [hscC.1]; omega⟩
        | true =>
          rw [bootLoop_cons_ok e staging i f rest cp hI hF hD]
          have ihr := ih (i + 1) (cp + 6)
          have hfront : Clean ([REv.prog cp, REv.sessionNew, REv.sessionInit] ++
              [REv.sessionFind, REv.sessionDownload, REv.prog (cp + 6)] ++
              (if rest.isEmpty = true then ([] : List REv)
                else [REv.prog (cp + 6), REv.sleepS 5])) :=
            clean_append (clean_append ⟨rfl, rfl⟩ ⟨rfl, rfl⟩)
              (by split_ifs <;> exact ⟨rfl, rfl⟩)
          exact ⟨fun h => clean_append hfront (ihr.1 h),
            fun h => failTail_clean_prepend hfront (ihr.2 h)⟩

theorem sendImageToRawemmc_shape (st : StageEnv) :
    ((sendImageToRawemmc st).1 = true → Clean (sendImageToRawemmc st).2) ∧
    ((sendImageToRawemmc st).1 = false →
      ∃ pre, (sendImageToRawemmc st).2 = pre ++ [REv.err] ∧ Clean pre) := by
  by_cases h1 : st.initOk = false
  · refine ⟨fun h => ?_, fun _ => ⟨[REv.sessionNew, REv.sessionInit],
      by simp [sendImageToRawemmc, h1], ⟨rfl, rfl⟩⟩⟩
    simp [sendImageToRawemmc, h1] at h
  · by_cases h2 : st.findOk = false
    · refine ⟨fun h => ?_, fun _ => ⟨[REv.sessionNew, REv.sessionInit, REv.sessionFind],
        by simp [sendImageToRawemmc, h1, h2], ⟨rfl, rfl⟩⟩⟩
      simp [sendImageToRawemmc, h1, h2] at h
    · by_cases h3 : st.dlOk = false
      · refine ⟨fun h => ?_, fun _ => ⟨[REv.sessionNew, REv.sessionInit, REv.sessionFind,
          REv.prog 80, REv.sessionDownload],
          by simp [sendImageToRawemmc, h1, h2, h3], ⟨rfl, rfl⟩⟩⟩
        simp [sendImageToRawemmc, h1, h2, h3] at h
      · have hstep : sendImageToRawemmc st =
            (true, [REv.sessionNew, REv.sessionInit, REv.sessionFind, REv.prog 80,
              REv.sessionDownload]) := by
          simp [sendImageToRawemmc, h1, h2, h3]
        rw [hstep]
        exact ⟨fun _ => ⟨rfl, rfl⟩, fun h => by simp at h⟩

theorem mainAfter_shape (e : RunEnv) (st : Option String) :
    SuccEnd (mainAfter e st) ∨ FailTail (mainAfter e st) := by
  have hscC : Clean (stagingCleanup st) := by cases st <;> exact ⟨rfl, rfl⟩
  have hscP : pseq (stagingCleanup st) = [] := by cases st <;> rfl
  cases hg : bootFiles.find? (fun f => !(e.bootExists (e.testFilesPath ++ "/" ++ f))) with
  | some g =>
    right
    rw [mainAfter_missing e st g hg]
    exact ⟨[REv.prog 52], stagingCleanup st, by simp, ⟨rfl, rfl⟩, ⟨hscP, hscC.2⟩,
      by rw [hscC.1]; omega⟩
  | none =>
    cases hr : (bootLoop e st 0 bootFiles 55).1 with
    | false =>
      right
      rw [mainAfter_bootFail e st hg hr]
      exact failTail_clean_prepend ⟨rfl, rfl⟩ ((bootLoop_shape e st bootFiles 0 55).2 hr)
    | true =>
      cases st with
      | none =>
        left
        rw [mainAfter_ok_noImage e hg hr]
        have hbc : Clean (bootLoop e none 0 bootFiles 55).2 :=
          (bootLoop_shape e none bootFiles 0 55).1 hr
        refine ⟨[REv.prog 52] ++ [REv.prog 55] ++ (bootLoop e none 0 bootFiles 55).2 ++
          [REv.prog 75] ++ [REv.prog 100], ?_, ?_⟩
        · simp [List.append_assoc]
        · exact clean_append (clean_append (clean_append (clean_append ⟨rfl, rfl⟩ ⟨rfl, rfl⟩)
            hbc) ⟨rfl, rfl⟩) ⟨rfl, rfl⟩
      | some p =>
        have hbc : Clean (bootLoop e (some p) 0 bootFiles 55).2 :=
          (bootLoop_shape e (some p) bootFiles 0 55).1 hr
        have hFc : Clean ([REv.prog 52] ++ [REv.prog 55] ++
            (bootLoop e (some p) 0 bootFiles 55).2 ++ [REv.prog 75] ++
            [REv.prog 78, REv.sleepS 10, REv.prog 80]) :=
          clean_append (clean_append (clean_append (clean_append ⟨rfl, rfl⟩ ⟨rfl, rfl⟩)
            hbc) ⟨rfl, rfl⟩) ⟨rfl, rfl⟩
        rw [mainAfter_ok_image e p hg hr]
        cases hs : (sendImageToRawemmc e.raw).1 with
        | false =>
          right
          obtain ⟨spre, hseq, hsclean⟩ := (sendImageToRawemmc_shape e.raw).2 hs
          refine ⟨[REv.prog 52] ++ [REv.prog 55] ++
            (bootLoop e (some p) 0 bootFiles 55).2 ++ [REv.prog 75] ++
            [REv.prog 78, REv.sleepS 10, REv.prog 80] ++ spre,
            [REv.err, REv.removeF p], ?_, clean_append hFc hsclean, ⟨rfl, rfl⟩,
            by exact Nat.le_refl 1⟩
          rw [if_pos rfl, hseq]
          simp [List.append_assoc]
        | true =>
          left
          have hsc : Clean (sendImageToRawemmc e.raw).2 :=
            (sendImageToRawemmc_shape e.raw).1 hs
          refine ⟨[REv.prog 52] ++ [REv.prog 55] ++
            (bootLoop e (some p) 0 bootFiles 55).2 ++ [REv.prog 75] ++
            [REv.prog 78, REv.sleepS 10, REv.prog 80] ++ (sendImageToRawemmc e.raw).2 ++
            [REv.removeF p, REv.prog 100], ?_, ?_⟩
          · rw [if_neg (by simp)]
            simp [List.append_assoc]
          · exact clean_append (clean_append hFc hsc) ⟨rfl, rfl⟩

theorem dfuRun_termSpec (e : RunEnv) : TermSpec (dfuRun e) := by
  have hic : Clean (initializeCache e).2 := initializeCache_clean e
  have has := acquireStep_shape e (initializeCache e).1
  cases hacq : (acquireStep e (initializeCache e).1).1 with
  | failed =>
    have heq : dfuRun e =
        (initializeCache e).2 ++ (acquireStep e (initializeCache e).1).2 := by
      simp [dfuRun, hacq]
    rw [heq]
    exact failTail_termSpec (failTail_clean_prepend hic (has.1 hacq))
  | noImage =>
    have hnil : (acquireStep e (initializeCache e).1).2 = [] :=
      acquireStep_noImage_evs e _ hacq
    have heq : dfuRun e = (initializeCache e).2 ++ mainAfter e none := by
      simp [dfuRun, hacq, hnil]
    rw [heq]
    rcases mainAfter_shape e none with hm | hm
    · exact succEnd_termSpec (succEnd_clean_prepend hic hm)
    · exact failTail_termSpec (failTail_clean_prepend hic hm)
  | acquired p =>
    have heq : dfuRun e = (initializeCache e).2 ++
        ((acquireStep e (initializeCache e).1).2 ++ mainAfter e (some p)) := by
      simp [dfuRun, hacq, List.append_assoc]
    rw [heq]
    have hacl : Clean (acquireStep e (initializeCache e).1).2 :=
      has.2 (by rw [hacq]; simp)
    rcases mainAfter_shape e (some p) with hm | hm
    · exact succEnd_termSpec (succEnd_clean_prepend hic (succEnd_clean_prepend hacl hm))
    · exact failTail_termSpec (failTail_clean_prepend hic (failTail_clean_prepend hacl hm))

/-! ## Claim C4 -/

/-- The corrected campaign-trace discipline: the emitted percentages are
monotonically non-decreasing, and the terminal events obey `TermSpec`: on a
clean run a single `success` is the last event, while a failing run emits
one or two `error` signals with nothing but the optional second `error` and
file-system cleanup (no progress, no success) after the first. -/
def ProgressTerminalPolicy (e : RunEnv) : Prop :=
  List.Chain' (· ≤ ·) (pseq (dfuRun e)) ∧ TermSpec (dfuRun e)

/-- Claim C4: in every execution of the campaign whose network progress
callbacks yield a monotone percentage stream within the 5-40 fetch band (as
QNetworkReply's cumulative byte counts do), the progress sequence of the
whole campaign is monotonically non-decreasing, and the terminal-event
discipline holds in the corrected form: a single trailing `success` on the
success path, or one or two `error` events on a failure path with no
progress or success after the first error.  The original "exactly one
terminal event" is refuted separately. -/
theorem run_progress_and_terminals (e : RunEnv)
    (hf : MonoLH (fetchPcts e.fetch) 5 40) : ProgressTerminalPolicy e :=
  ⟨(dfuRun_pseq_mono e hf).1, dfuRun_termSpec e⟩

def c4WitEnv : RunEnv :=
  ⟨"b", "t", "d", "", "/tf", "/cd", "/td", false, none, fun _ => 0, false, false, 0,
   false, ⟨true, [], [100], false, 0⟩, ⟨true, true, true, [], XzEnd.finish 0 true⟩,
   fun _ => true, fun _ => ⟨true, true, true⟩, ⟨true, true, true⟩⟩

theorem run_progress_and_terminals_witness :
    MonoLH (fetchPcts c4WitEnv.fetch) 5 40 ∧ ProgressTerminalPolicy c4WitEnv := by
  have hf : MonoLH (fetchPcts c4WitEnv.fetch) 5 40 := by
    rw [show fetchPcts c4WitEnv.fetch = [] from rfl]
    exact monoLH_nil 5 40
  exact ⟨hf, run_progress_and_terminals c4WitEnv hf⟩

def c4Env : RunEnv :=
  ⟨"b", "t", "d", "", "/tf", "/cd", "/td", false, none, fun _ => 0, false, false, 0,
   false, ⟨true, [(10, 100)], [7], true, 0⟩, ⟨true, true, true, [], XzEnd.finish 0 true⟩,
   fun _ => true, fun _ => ⟨true, true, true⟩, ⟨true, true, true⟩⟩

/-- Claim C4 counterexample: when the network fetch fails, the campaign
emits two `error` signals — one inside `downloadImage` (line 856) and then
`run`'s own (line 612) — refuting "exactly one terminal event (success or
error) is emitted over the whole campaign". -/
theorem run_failure_emits_two_errors :
    countErr (dfuRun c4Env) = 2 ∧ countSucc (dfuRun c4Env) = 0 := by decide

end GemImager
